import Mathlib

/-!
QCCTV: the station-side camera session (`QCCTV_RemoteCamera.cpp`)

A shallow embedding of `QCCTV_RemoteCamera`: the member variables become a
structure, every slot becomes a function from the old state to the new state
together with the list of things it did (signals emitted, datagrams written,
timers armed), and `QByteArray::at` becomes a checked access that reports an
index outside the array. The single-shot timers are followed in time by a
model of the thread's event loop, which activates pending timers in the order
in which they are due.
-/

set_option linter.dupNamespace false

namespace QCCTV

/-! ## Qt value types -/

/-- One `char` of a `QByteArray`, as its bit pattern 0..255. -/
abbrev Byte := Fin 256

/-- A `QByteArray`: a sequence of bytes. -/
abbrev QByteArray := List Byte

/-- A `QString`. Every character this code appends comes from one byte and is
a single UTF-16 code unit outside the surrogate range. -/
abbrev QString := String

/-- A `QImage`: `none` is the null image (what `QImage::fromData` returns when
the bytes do not decode), `some px` a decoded image. -/
abbrev QImage := Option (List Nat)

/-- A `QHostAddress`: `none` is the null address (`isNull()`). -/
abbrev QHostAddress := Option Nat

/-- What `QCCTV.h` and the platform fix and `QCCTV_RemoteCamera.cpp` only
uses: the enumerators and port numbers of `QCCTV.h` (which is not among the
sources), whether plain `char` is signed, and the image decoder
`QImage::fromData (bytes, QCCTV_IMAGE_FORMAT)`. -/
structure Env where
  QCCTV_LIGHT_OFF : Int
  QCCTV_CAMSTATUS_DISCONNECTED : Int
  QCCTV_FORCE_FOCUS : Int
  QCCTV_STREAM_PORT : Nat
  QCCTV_COMMAND_PORT : Nat
  QCCTV_REQUEST_PORT : Nat
  charSigned : Bool
  fromData : QByteArray → QImage

/-- Conversion of an `int` (or enumerator) to `char`, as `QByteArray::append
(char)` receives it: the low eight bits. -/
def toChar (x : Int) : Byte := ⟨(x % 256).toNat, by omega⟩

/-- Conversion of a `char` to `int` (`int n = data.at (i)`): sign-extending
where plain `char` is signed. -/
def charToInt (k : Env) (c : Byte) : Int :=
  if k.charSigned = true ∧ 128 ≤ c.val then (c.val : Int) - 256 else (c.val : Int)

/-- The `QChar` that `name.append (data.at (i))` appends. `QString` has no
`append (char)` and `QChar (char)` is explicit, so the call goes through
`append (QChar)` with the `char` promoted to `int` and converted by
`QChar (int rc)`, whose code unit is `ushort (rc & 0xffff)`: the byte itself
below 0x80 and wherever plain `char` is unsigned, and U+FF80..U+FFFF for the
bytes from 0x80 on where plain `char` is signed. -/
def toQChar (k : Env) (c : Byte) : Char := Char.ofNat ((charToInt k c) % 65536).toNat

/-- Qt's `qMax (a, b)`: `(a < b) ? b : a`. -/
def qMax (a b : Int) : Int := if a < b then b else a

/-- An access outside a `QByteArray` (`QByteArray::at` requires
`0 <= i < size()`). -/
inductive Fault where
  | outOfRange (index : Int) (size : Nat)
deriving DecidableEq, Repr

/-- The checked form of `QByteArray::at (i)`. -/
def QByteArray.at (data : QByteArray) (i : Int) : Except Fault Byte :=
  if 0 ≤ i then
    match data.get? i.toNat with
    | some c => .ok c
    | none => .error (.outOfRange i data.length)
  else .error (.outOfRange i data.length)

/-! ## Slots, signals and the session state -/

/-- The slots that `QTimer::singleShot` is asked to call. -/
inductive Slot where
  | sendData
  | sendRequest
  | resetFocusRequest
deriving DecidableEq, Repr

/-- What a member function does besides changing the member variables: the
signals it emits and the calls it makes on sockets and timers, in order. -/
inductive Event where
  | newImage
  | newLightStatus
  | connected
  | disconnected
  | newCameraStatus
  | newCameraName
  | newCameraGroup
  | writeDatagram (data : QByteArray) (address : QHostAddress) (port : Nat)
  | singleShot (msec : Nat) (slot : Slot)
  | receiverClose
  | receiverBind (address : QHostAddress) (port : Nat)
deriving DecidableEq, Repr

/-- The member variables of `QCCTV_RemoteCamera`. -/
structure QCCTV_RemoteCamera where
  m_fps : Int
  m_requestPackets : Int
  m_focus : Bool
  m_group : QString
  m_name : QString
  m_light_status : Int
  m_camera_status : Int
  m_image : QImage
  m_address : QHostAddress
deriving DecidableEq, Repr

namespace QCCTV_RemoteCamera

/-- The getter `fps()`. -/
def fps (s : QCCTV_RemoteCamera) : Int := s.m_fps

/-- The getter `group()`. -/
def group (s : QCCTV_RemoteCamera) : QString := s.m_group

/-- The getter `cameraName()`. -/
def cameraName (s : QCCTV_RemoteCamera) : QString := s.m_name

/-- The getter `currentImage()`. -/
def currentImage (s : QCCTV_RemoteCamera) : QImage := s.m_image

/-- The getter `address()`. -/
def address (s : QCCTV_RemoteCamera) : QHostAddress := s.m_address

/-- The getter `lightStatus()`. -/
def lightStatus (s : QCCTV_RemoteCamera) : Int := s.m_light_status

/-- The getter `cameraStatus()`. -/
def cameraStatus (s : QCCTV_RemoteCamera) : Int := s.m_camera_status

/-- The slot `requestFocus()`: raises the focus flag and arms the 2000 ms
timer that calls `resetFocusRequest()`. -/
def requestFocus (s : QCCTV_RemoteCamera) : QCCTV_RemoteCamera × List Event :=
  ({ s with m_focus := true }, [.singleShot 2000 .resetFocusRequest])

/-- The slot `setFPS (fps)`: `m_fps = qMax (fps, 10)`. -/
def setFPS (s : QCCTV_RemoteCamera) (fps : Int) : QCCTV_RemoteCamera :=
  { s with m_fps := qMax fps 10 }

/-- The slot `attemptConnection (address)`. -/
def attemptConnection (k : Env) (s : QCCTV_RemoteCamera) (address : QHostAddress) :
    QCCTV_RemoteCamera × List Event :=
  ({ s with m_address := address, m_requestPackets := 10 },
   [.receiverClose, .receiverBind address k.QCCTV_STREAM_PORT])

/-- The slot `setLightStatus (status)`. -/
def setLightStatus (s : QCCTV_RemoteCamera) (status : Int) :
    QCCTV_RemoteCamera × List Event :=
  if s.m_light_status ≠ status then
    ({ s with m_light_status := status }, [.newLightStatus])
  else (s, [])

/-- The slot `setCameraStatus (status)`. -/
def setCameraStatus (k : Env) (s : QCCTV_RemoteCamera) (status : Int) :
    QCCTV_RemoteCamera × List Event :=
  if s.m_camera_status ≠ status then
    ({ s with m_camera_status := status },
     (if s.m_camera_status = k.QCCTV_CAMSTATUS_DISCONNECTED then [Event.connected] else [])
       ++ (if status = k.QCCTV_CAMSTATUS_DISCONNECTED then [Event.disconnected] else [])
       ++ [Event.newCameraStatus])
  else (s, [])

/-- The bytes `sendData()` generates ("Generate the data"): three `append`
calls on an empty `QByteArray`. -/
def commandData (k : Env) (s : QCCTV_RemoteCamera) : QByteArray :=
  [toChar s.fps, toChar s.lightStatus,
   toChar (if s.m_focus = true then k.QCCTV_FORCE_FOCUS else 0)]

/-- The slot `sendData()`: generates the data, writes it to the camera when
the address is set and the camera is not disconnected, and arms the next
call. -/
def sendData (k : Env) (s : QCCTV_RemoteCamera) : QCCTV_RemoteCamera × List Event :=
  (s,
   (if s.address ≠ none ∧ s.cameraStatus ≠ k.QCCTV_CAMSTATUS_DISCONNECTED then
      [Event.writeDatagram (commandData k s) s.address k.QCCTV_COMMAND_PORT]
    else [])
     ++ [Event.singleShot 500 Slot.sendData])

/-- The slot `setName (name)`. -/
def setName (s : QCCTV_RemoteCamera) (name : QString) : QCCTV_RemoteCamera × List Event :=
  if s.m_name ≠ name then
    ({ s with m_name := if name.isEmpty then "Unknown Camera" else name }, [.newCameraName])
  else (s, [])

/-- The slot `setGroup (group)`. -/
def setGroup (s : QCCTV_RemoteCamera) (group : QString) : QCCTV_RemoteCamera × List Event :=
  if s.m_group ≠ group then
    ({ s with m_group := if group.isEmpty then "default" else group }, [.newCameraGroup])
  else (s, [])

/-- The slot `resetFocusRequest()`. -/
def resetFocusRequest (s : QCCTV_RemoteCamera) : QCCTV_RemoteCamera × List Event :=
  ({ s with m_focus := false }, [])

/-- The slot `onCameraTimeout()`. -/
def onCameraTimeout (k : Env) (s : QCCTV_RemoteCamera) : QCCTV_RemoteCamera × List Event :=
  let r1 := s.setLightStatus k.QCCTV_LIGHT_OFF
  let r2 := r1.1.setCameraStatus k k.QCCTV_CAMSTATUS_DISCONNECTED
  (r2.1, r1.2 ++ r2.2)

/-- The UTF-8 bytes of a string (`QString::toUtf8`). -/
def toUtf8 (str : QString) : QByteArray := str.toUTF8.data.toList.map (fun b => b.val)

/-- The slot `sendRequest()`. -/
def sendRequest (k : Env) (s : QCCTV_RemoteCamera) : QCCTV_RemoteCamera × List Event :=
  if s.m_requestPackets > 0 then
    ({ s with m_requestPackets := s.m_requestPackets - 1 },
     [.writeDatagram (toUtf8 s.group) s.m_address k.QCCTV_REQUEST_PORT,
      .singleShot 500 .sendRequest])
  else (s, [.singleShot 500 .sendRequest])

/-- The loop `for (i = 0; i < n; ++i) out.append (data.at (start + i))`:
the `n` bytes from index `start` on, read one after the other. -/
def readChars (data : QByteArray) (start : Int) : Nat → Except Fault (List Byte)
  | 0 => .ok []
  | n + 1 =>
    match QByteArray.at data start with
    | .error f => .error f
    | .ok c =>
      match readChars data (start + 1) n with
      | .error f => .error f
      | .ok cs => .ok (c :: cs)

/-- The local variables of `readData()` once a datagram has been taken apart
("Get camera name" to "Get raw image"). -/
structure Fields where
  name : QString
  group : QString
  fps : Int
  light : Int
  status : Int
  imageData : QByteArray
deriving DecidableEq, Repr

/-- The part of `readData()` that takes one datagram apart: the byte reads
from "Get camera name" to "Get raw image", in the order of the source. -/
def readFields (k : Env) (data : QByteArray) : Except Fault Fields := do
  let name_len := charToInt k (← QByteArray.at data 0)
  let name ← readChars data 1 name_len.toNat
  let group_len := charToInt k (← QByteArray.at data (name_len + 1))
  let group ← readChars data (name_len + 2) group_len.toNat
  let offset := name_len + group_len + 2
  let fps := charToInt k (← QByteArray.at data (offset + 1))
  let light := charToInt k (← QByteArray.at data (offset + 2))
  let status := charToInt k (← QByteArray.at data (offset + 3))
  let imageData ← readChars data (offset + 4) ((data.length : Int) - (offset + 4)).toNat
  pure { name := String.mk (name.map (toQChar k)), group := String.mk (group.map (toQChar k)),
         fps := fps, light := light, status := status, imageData := imageData }

/-- The part of `readData()` that follows for the same datagram: "Convert raw
image to QImage" and "Update values". -/
def updateValues (k : Env) (s : QCCTV_RemoteCamera) (p : Fields) :
    QCCTV_RemoteCamera × List Event :=
  let s0 := { s with m_image := k.fromData p.imageData }
  let s1 := s0.setFPS p.fps
  let r2 := s1.setName p.name
  let r3 := r2.1.setGroup p.group
  let r4 := r3.1.setLightStatus p.light
  let r5 := r4.1.setCameraStatus k p.status
  (r5.1, [Event.newImage] ++ r2.2 ++ r3.2 ++ r4.2 ++ r5.2)

/-- The slot `readData()`, run with the datagrams `pending` waiting on the
receiver socket: the `while` loop takes them one by one, and returns at the
first that reads as `bytes <= 0`. -/
def readData (k : Env) : List QByteArray → QCCTV_RemoteCamera →
    Except Fault (QCCTV_RemoteCamera × List Event)
  | [], s => .ok (s, [])
  | data :: pending, s =>
    if (data.length : Int) ≤ 0 then .ok (s, [])
    else
      match readFields k data with
      | .error f => .error f
      | .ok p =>
        match readData k pending (updateValues k s p).1 with
        | .error f => .error f
        | .ok r => .ok (r.1, (updateValues k s p).2 ++ r.2)

/-- The constructor: the default member values, then the first calls of
`sendData()` and `sendRequest()`. -/
def QCCTV_RemoteCamera (k : Env) : QCCTV.QCCTV_RemoteCamera × List Event :=
  let s : QCCTV.QCCTV_RemoteCamera :=
    { m_fps := 24, m_requestPackets := 0, m_focus := false, m_group := "default",
      m_name := "Unknown Camera", m_light_status := k.QCCTV_LIGHT_OFF,
      m_camera_status := k.QCCTV_CAMSTATUS_DISCONNECTED, m_image := none,
      m_address := none }
  let r1 := sendData k s
  let r2 := sendRequest k r1.1
  (r2.1, r1.2 ++ r2.2)

/-- Calls of `sendData()` one after the other, as the 500 ms timer makes
them: the state after `n` calls and everything they did. -/
def sendDataTicks (k : Env) : Nat → QCCTV.QCCTV_RemoteCamera →
    QCCTV.QCCTV_RemoteCamera × List Event
  | 0, s => (s, [])
  | n + 1, s =>
    let r := sendData k s
    let rest := sendDataTicks k n r.1
    (rest.1, r.2 ++ rest.2)

end QCCTV_RemoteCamera

/-! ## Reading the trace -/

/-- The datagrams written to the sockets, in order. -/
def datagrams : List Event → List QByteArray
  | [] => []
  | .writeDatagram data _ _ :: es => data :: datagrams es
  | _ :: es => datagrams es

/-- The stream datagram as the comment above `readData()` lays it out: length
of the camera name, the name, length of the group name, the group, the FPS
byte, the light status byte, the operation status byte, the raw image. -/
def documentedPacket (name group : QByteArray) (fps light status : Byte)
    (image : QByteArray) : QByteArray :=
  [toChar name.length] ++ name ++ [toChar group.length] ++ group
    ++ [fps, light, status] ++ image

/-- Modelled from the spec: `QCCTV.h`, which defines the enumerators and port
numbers, is not among the sources. These sample values follow the
specification: light status 0 is off, the focus byte 0x01 forces a focus, the
stream, command and request ports are 1100, 1101 and 1103, and Disconnected is
taken as 0x10, the fifth flag after Ok = 0 in the order the specification
lists the status flags. Plain `char` is signed, and the decoder accepts
exactly the byte strings that start with the JPEG marker FF D8. The theorems
that quantify over `Env` do not depend on these values. -/
def sampleEnv : Env :=
  { QCCTV_LIGHT_OFF := 0, QCCTV_CAMSTATUS_DISCONNECTED := 16, QCCTV_FORCE_FOCUS := 1,
    QCCTV_STREAM_PORT := 1100, QCCTV_COMMAND_PORT := 1101, QCCTV_REQUEST_PORT := 1103,
    charSigned := true,
    fromData := fun bytes =>
      match bytes with
      | 0xFF :: 0xD8 :: rest => some (rest.map (fun b => b.val))
      | _ => none }

/-- A session that is connected to the camera at address 7. -/
def sampleConnected : QCCTV_RemoteCamera :=
  { m_fps := 24, m_requestPackets := 0, m_focus := false, m_group := "default",
    m_name := "cam1", m_light_status := 0, m_camera_status := 0,
    m_image := some [1, 2, 3], m_address := some 7 }

/-- A session that knows the camera at address 7 and is disconnected from it
(the state after a timeout). -/
def sampleDisconnected : QCCTV_RemoteCamera :=
  { m_fps := 24, m_requestPackets := 0, m_focus := false, m_group := "default",
    m_name := "cam1", m_light_status := 0, m_camera_status := 16,
    m_image := none, m_address := some 7 }

/-! ## Sequences of calls -/

/-- The `writeDatagram` calls of a trace, in order: the data, the address and
the port of each. -/
def writes : List Event → List (QByteArray × QHostAddress × Nat)
  | [] => []
  | .writeDatagram data address port :: es => (data, address, port) :: writes es
  | _ :: es => writes es

/-- Calls of `sendRequest()` one after the other, as the 500 ms timer makes
them: the state after `n` calls and everything they did. -/
def QCCTV_RemoteCamera.sendRequestTicks (k : Env) : Nat → QCCTV.QCCTV_RemoteCamera →
    QCCTV.QCCTV_RemoteCamera × List Event
  | 0, s => (s, [])
  | n + 1, s =>
    let r := QCCTV_RemoteCamera.sendRequest k s
    let rest := QCCTV_RemoteCamera.sendRequestTicks k n r.1
    (rest.1, r.2 ++ rest.2)

/-- One call of a member function of `QCCTV_RemoteCamera` from outside (a
caller, a timer or the receiver socket), with its arguments. -/
inductive Call where
  | requestFocus
  | setFPS (fps : Int)
  | attemptConnection (address : QHostAddress)
  | setLightStatus (status : Int)
  | setCameraStatus (status : Int)
  | sendData
  | readData (pending : List QByteArray)
  | sendRequest
  | onCameraTimeout
  | resetFocusRequest
  | setName (name : QString)
  | setGroup (group : QString)
deriving DecidableEq, Repr

/-- The effect of one call on a session. -/
def QCCTV_RemoteCamera.call (k : Env) (s : QCCTV.QCCTV_RemoteCamera) :
    Call → Except Fault (QCCTV.QCCTV_RemoteCamera × List Event)
  | .requestFocus => .ok s.requestFocus
  | .setFPS fps => .ok (s.setFPS fps, [])
  | .attemptConnection address => .ok (s.attemptConnection k address)
  | .setLightStatus status => .ok (s.setLightStatus status)
  | .setCameraStatus status => .ok (s.setCameraStatus k status)
  | .sendData => .ok (s.sendData k)
  | .readData pending => QCCTV_RemoteCamera.readData k pending s
  | .sendRequest => .ok (s.sendRequest k)
  | .onCameraTimeout => .ok (s.onCameraTimeout k)
  | .resetFocusRequest => .ok s.resetFocusRequest
  | .setName name => .ok (s.setName name)
  | .setGroup group => .ok (s.setGroup group)

/-- The effect of a sequence of calls, made one after the other. -/
def QCCTV_RemoteCamera.calls (k : Env) :
    List Call → QCCTV.QCCTV_RemoteCamera →
    Except Fault (QCCTV.QCCTV_RemoteCamera × List Event)
  | [], s => .ok (s, [])
  | c :: cs, s =>
    match QCCTV_RemoteCamera.call k s c with
    | .error f => .error f
    | .ok r =>
      match QCCTV_RemoteCamera.calls k cs r.1 with
      | .error f => .error f
      | .ok r2 => .ok (r2.1, r.2 ++ r2.2)

/-- A field length that survives `int len = data.at (i)` unchanged: 0..127, or
0..255 where plain `char` is unsigned. -/
def fitsLength (k : Env) (n : Nat) : Prop :=
  n ≤ 127 ∨ (k.charSigned = false ∧ n ≤ 255)

instance (k : Env) (n : Nat) : Decidable (fitsLength k n) := by
  unfold fitsLength
  exact inferInstance

/-- What holds of the member variables in every state the constructor and
the member functions produce: the count of pending request packets is not
negative and neither the camera name nor the group is the empty string. -/
def wellFormed (s : QCCTV_RemoteCamera) : Prop :=
  0 ≤ s.m_requestPackets ∧ s.m_name ≠ "" ∧ s.m_group ≠ ""

instance (s : QCCTV_RemoteCamera) : Decidable (wellFormed s) := by
  unfold wellFormed
  exact inferInstance

/-- The state after the constructor, `setName ("")`, the datagram
00 00 00 18 00 00 01 02 (empty name, empty group) and `setGroup ("")`, with
what these three calls did. -/
def sampleAfterEmptyNames : QCCTV_RemoteCamera × List Event :=
  ({ m_fps := 24, m_requestPackets := 0, m_focus := false, m_group := "default",
     m_name := "Unknown Camera", m_light_status := 0, m_camera_status := 0,
     m_image := none, m_address := none },
   [Event.newCameraName, Event.newImage, Event.newCameraName, Event.newCameraGroup,
    Event.connected, Event.newCameraStatus, Event.newCameraGroup])

/-! ## The event loop: single-shot timers in time -/

/-- A pending `QTimer::singleShot`: the time in milliseconds at which it is
due, its place in the order of registration, and the slot it calls. -/
structure Timer where
  due : Nat
  seq : Nat
  slot : Slot
deriving DecidableEq, Repr

/-- The order in which the event loop activates timers: by due time, and among
timers due at the same time the one registered first (Qt keeps its timer list
sorted by due time and inserts a new timer behind those due no later). -/
def Timer.before (a b : Timer) : Prop :=
  a.due < b.due ∨ (a.due = b.due ∧ a.seq < b.seq)

instance (a b : Timer) : Decidable (a.before b) := by
  unfold Timer.before
  exact inferInstance

/-- The pending timer that the event loop activates next. -/
def nextTimer : List Timer → Option Timer
  | [] => none
  | t :: ts =>
    match nextTimer ts with
    | none => some t
    | some u => if u.before t then some u else some t

/-- The `QTimer::singleShot` calls of a trace: interval and slot of each. -/
def shots : List Event → List (Nat × Slot)
  | [] => []
  | .singleShot msec slot :: es => (msec, slot) :: shots es
  | _ :: es => shots es

/-- The timers that single-shot calls made at time `now` register, numbered
from `seq` on. -/
def newTimers (now : Nat) : Nat → List (Nat × Slot) → List Timer
  | _, [] => []
  | seq, (msec, slot) :: rest =>
    { due := now + msec, seq := seq, slot := slot } :: newTimers now (seq + 1) rest

/-- The session inside its thread's event loop: the clock in milliseconds, the
pending single-shot timers and the number the next timer gets. -/
structure EventLoop where
  now : Nat
  nextSeq : Nat
  timers : List Timer
  camera : QCCTV_RemoteCamera
deriving DecidableEq, Repr

/-- One record of the event loop's log: when something ran, which timer slot
it was (`none` for a call from outside) and what it did. -/
structure Entry where
  time : Nat
  fired : Option Slot
  events : List Event
deriving DecidableEq, Repr

/-- What happens next in the event loop: it activates the next pending timer,
`late` milliseconds after the earliest moment it could, or something outside
calls a member function `late` milliseconds after the previous event. -/
inductive Step where
  | timer (late : Nat)
  | call (late : Nat) (c : Call)
deriving DecidableEq, Repr

/-- The slot a timer calls. -/
def QCCTV_RemoteCamera.fire (k : Env) (s : QCCTV.QCCTV_RemoteCamera) :
    Slot → QCCTV.QCCTV_RemoteCamera × List Event
  | .sendData => s.sendData k
  | .sendRequest => s.sendRequest k
  | .resetFocusRequest => s.resetFocusRequest

/-- The event loop right after the constructor ran at time 0: the timers are
the ones its calls of `sendData()` and `sendRequest()` registered. -/
def EventLoop.boot (k : Env) : EventLoop :=
  { now := 0,
    nextSeq := (shots (QCCTV_RemoteCamera.QCCTV_RemoteCamera k).2).length,
    timers := newTimers 0 0 (shots (QCCTV_RemoteCamera.QCCTV_RemoteCamera k).2),
    camera := (QCCTV_RemoteCamera.QCCTV_RemoteCamera k).1 }

/-- One step of the event loop. A timer is activated no earlier than it is
due; what it or an outside call registers with `QTimer::singleShot` is due the
given interval after the time of the call. -/
def EventLoop.step (k : Env) (L : EventLoop) : Step → Except Fault (EventLoop × List Entry)
  | .timer late =>
    match nextTimer L.timers with
    | none => .ok ({ L with now := L.now + late }, [])
    | some t =>
      .ok ({ now := max L.now t.due + late,
             nextSeq := L.nextSeq + (shots (QCCTV_RemoteCamera.fire k L.camera t.slot).2).length,
             timers := L.timers.filter (fun u => decide (u ≠ t))
               ++ newTimers (max L.now t.due + late) L.nextSeq
                    (shots (QCCTV_RemoteCamera.fire k L.camera t.slot).2),
             camera := (QCCTV_RemoteCamera.fire k L.camera t.slot).1 },
           [{ time := max L.now t.due + late, fired := some t.slot,
              events := (QCCTV_RemoteCamera.fire k L.camera t.slot).2 }])
  | .call late c =>
    match QCCTV_RemoteCamera.call k L.camera c with
    | .error f => .error f
    | .ok r =>
      .ok ({ now := L.now + late,
             nextSeq := L.nextSeq + (shots r.2).length,
             timers := L.timers ++ newTimers (L.now + late) L.nextSeq (shots r.2),
             camera := r.1 },
           [{ time := L.now + late, fired := none, events := r.2 }])

/-- A run of the event loop: the steps one after the other, with the log of
what ran. -/
def EventLoop.run (k : Env) : List Step → EventLoop → Except Fault (EventLoop × List Entry)
  | [], L => .ok (L, [])
  | s :: rest, L =>
    match L.step k s with
    | .error f => .error f
    | .ok r =>
      match EventLoop.run k rest r.1 with
      | .error f => .error f
      | .ok r2 => .ok (r2.1, r.2 ++ r2.2)

/-- A step that can happen to a session: a timer activation, or a call of a
member function other than the three timer slots, which only the constructor
and the timers call. -/
def Step.outside : Step → Bool
  | .timer _ => true
  | .call _ .sendData => false
  | .call _ .sendRequest => false
  | .call _ .resetFocusRequest => false
  | .call _ _ => true

/-- A step that is not a call of `requestFocus()`. -/
def Step.noFocusRequest : Step → Bool
  | .call _ .requestFocus => false
  | _ => true

/-- The command datagrams of a log: what the `sendData()` activations wrote,
in order. -/
def commandDatagrams : List Entry → List QByteArray
  | [] => []
  | e :: es =>
    if e.fired = some Slot.sendData then datagrams e.events ++ commandDatagrams es
    else commandDatagrams es

/-- The part of a log before the first activation of `resetFocusRequest()`. -/
def beforeReset (log : List Entry) : List Entry :=
  log.takeWhile (fun e => decide (e.fired ≠ some Slot.resetFocusRequest))

/-- The part of a log from the first activation of `resetFocusRequest()` on. -/
def afterReset (log : List Entry) : List Entry :=
  log.dropWhile (fun e => decide (e.fired ≠ some Slot.resetFocusRequest))

/-- At most one `sendData()` timer is pending: the constructor starts the
chain and each activation registers the next one. -/
def oneSendData (L : EventLoop) : Prop :=
  ∃ sd : Timer, ∀ a ∈ L.timers, a.slot = Slot.sendData → a = sd

/-- The event loop between a `requestFocus()` made at time `t0`, whose reset
timer got the number `r`, and the next activation of `resetFocusRequest()`,
once `sendData()` has been activated `n` times since: the focus flag is set, a
reset timer due no later than `t0 + 2000` is pending, and the pending
`sendData()` timer, when `n` is not 0, was registered after it and is due no
earlier than `t0 + 500 n`. -/
def focusPending (t0 r n : Nat) (L : EventLoop) : Prop :=
  L.camera.m_focus = true ∧ t0 ≤ L.now ∧ r < L.nextSeq ∧ n ≤ 4
    ∧ (∃ rt ∈ L.timers, rt.slot = Slot.resetFocusRequest ∧ rt.due ≤ t0 + 2000 ∧ rt.seq ≤ r)
    ∧ (∃ sd : Timer, ∀ a ∈ L.timers, a.slot = Slot.sendData →
        a = sd ∧ (1 ≤ n → t0 + 500 * n ≤ a.due ∧ r < a.seq))

/-- The steps that connect a fresh session: `attemptConnection` at time 0 and
a stream datagram of camera "cam1" at time 100. -/
def sampleConnectSteps : List Step :=
  [Step.call 0 (Call.attemptConnection (some 7)),
   Step.call 100 (Call.readData
     [documentedPacket [99, 97, 109, 49] [100, 101, 102, 97, 117, 108, 116] 24 0 0
       [0xFF, 0xD8]])]

/-- The event loop after `sampleConnectSteps`: time 100, the two timers of the
constructor still pending, the session connected. -/
def sampleLoopConnected : EventLoop :=
  { now := 100, nextSeq := 2,
    timers := [{ due := 500, seq := 0, slot := Slot.sendData },
               { due := 500, seq := 1, slot := Slot.sendRequest }],
    camera := { m_fps := 10, m_requestPackets := 10, m_focus := false, m_group := "default",
                m_name := "cam1", m_light_status := 0, m_camera_status := -1,
                m_image := none, m_address := some 7 } }

/-- The log of `sampleConnectSteps`. -/
def sampleConnectLog : List Entry :=
  [{ time := 0, fired := none,
     events := [Event.receiverClose, Event.receiverBind (some 7) 1100] },
   { time := 100, fired := none,
     events := [Event.newImage, Event.newCameraName, Event.connected,
                Event.newCameraStatus] }]

/-- Twelve timer activations, each on time. -/
def sampleTimerSteps : List Step := List.replicate 12 (Step.timer 0)

/-- The run in which `requestFocus()` is called on `sampleLoopConnected` at
time 500, just before the command tick due then, followed by
`sampleTimerSteps`. -/
def sampleFocusRun : EventLoop × List Entry :=
  match EventLoop.run sampleEnv (Step.call 400 Call.requestFocus :: sampleTimerSteps)
      sampleLoopConnected with
  | .ok out => out
  | .error _ => (sampleLoopConnected, [])

/-! ## Lemmas shared by the theorems below -/

theorem qMax_eq_max (a b : Int) : qMax a b = max a b := by
  unfold qMax
  split <;> omega

theorem toChar_val_of_range (x : Int) (h0 : 0 ≤ x) (h1 : x < 256) :
    ((toChar x).val : Int) = x := by
  unfold toChar
  simp only []
  omega

theorem sendData_fst (k : Env) (s : QCCTV_RemoteCamera) :
    (QCCTV_RemoteCamera.sendData k s).1 = s := rfl

theorem sendDataTicks_fst (k : Env) (n : Nat) (s : QCCTV_RemoteCamera) :
    (QCCTV_RemoteCamera.sendDataTicks k n s).1 = s := by
  induction n with
  | zero => rfl
  | succ n ih => simp only [QCCTV_RemoteCamera.sendDataTicks, sendData_fst, ih]

theorem datagrams_append (xs ys : List Event) :
    datagrams (xs ++ ys) = datagrams xs ++ datagrams ys := by
  induction xs with
  | nil => rfl
  | cons e es ih => cases e <;> simp [datagrams, ih]

theorem datagrams_sendData (k : Env) (s : QCCTV_RemoteCamera) :
    datagrams (QCCTV_RemoteCamera.sendData k s).2 =
      if s.m_address ≠ none ∧ s.m_camera_status ≠ k.QCCTV_CAMSTATUS_DISCONNECTED then
        [QCCTV_RemoteCamera.commandData k s]
      else [] := by
  unfold QCCTV_RemoteCamera.sendData QCCTV_RemoteCamera.address QCCTV_RemoteCamera.cameraStatus
  split <;> simp [datagrams]

theorem datagrams_sendDataTicks (k : Env) (n : Nat) (s : QCCTV_RemoteCamera) :
    datagrams (QCCTV_RemoteCamera.sendDataTicks k n s).2 =
      List.replicate
        (if s.m_address ≠ none ∧ s.m_camera_status ≠ k.QCCTV_CAMSTATUS_DISCONNECTED then n else 0)
        (QCCTV_RemoteCamera.commandData k s) := by
  induction n with
  | zero => simp [QCCTV_RemoteCamera.sendDataTicks, datagrams]
  | succ n ih =>
    simp only [QCCTV_RemoteCamera.sendDataTicks, datagrams_append, sendData_fst, ih,
      datagrams_sendData]
    split <;> simp [List.replicate_succ]

theorem setCameraStatus_same (k : Env) (s : QCCTV_RemoteCamera) (new : Int)
    (h : s.m_camera_status = new) : s.setCameraStatus k new = (s, []) := by
  unfold QCCTV_RemoteCamera.setCameraStatus
  rw [if_neg (not_not.mpr h)]

theorem setCameraStatus_diff (k : Env) (s : QCCTV_RemoteCamera) (new : Int)
    (h : ¬ s.m_camera_status = new) :
    s.setCameraStatus k new =
      ({ s with m_camera_status := new },
       (if s.m_camera_status = k.QCCTV_CAMSTATUS_DISCONNECTED then [Event.connected] else [])
         ++ (if new = k.QCCTV_CAMSTATUS_DISCONNECTED then [Event.disconnected] else [])
         ++ [Event.newCameraStatus]) := by
  unfold QCCTV_RemoteCamera.setCameraStatus
  rw [if_pos h]

theorem setLightStatus_same (s : QCCTV_RemoteCamera) (new : Int)
    (h : s.m_light_status = new) : s.setLightStatus new = (s, []) := by
  unfold QCCTV_RemoteCamera.setLightStatus
  rw [if_neg (not_not.mpr h)]

theorem setLightStatus_diff (s : QCCTV_RemoteCamera) (new : Int)
    (h : ¬ s.m_light_status = new) :
    s.setLightStatus new = ({ s with m_light_status := new }, [Event.newLightStatus]) := by
  unfold QCCTV_RemoteCamera.setLightStatus
  rw [if_pos h]

theorem at_of_split (data pre post : QByteArray) (c : Byte) (i : Int)
    (hd : data = pre ++ c :: post) (hi : i = (pre.length : Int)) :
    QByteArray.at data i = .ok c := by
  subst hd hi
  have h : (pre ++ c :: post).get? (pre.length : Int).toNat = some c := by
    rw [Int.toNat_ofNat, List.get?_eq_getElem?, List.getElem?_append_right (le_refl _)]
    simp
  unfold QByteArray.at
  rw [if_pos (Int.ofNat_nonneg _), h]

theorem readChars_of_split (seg : QByteArray) :
    ∀ (data pre post : QByteArray) (start : Int) (n : Nat),
      data = pre ++ seg ++ post → start = (pre.length : Int) → n = seg.length →
      QCCTV_RemoteCamera.readChars data start n = .ok seg := by
  induction seg with
  | nil =>
    intro data pre post start n _ _ hn
    subst hn
    rfl
  | cons c cs ih =>
    intro data pre post start n hd hs hn
    subst hn
    simp only [List.length_cons, QCCTV_RemoteCamera.readChars]
    rw [at_of_split data pre (cs ++ post) c start (by simpa using hd) hs]
    simp only []
    rw [ih data (pre ++ [c]) post (start + 1) cs.length (by simpa using hd)
      (by simp [hs]) rfl]

theorem charToInt_toChar_small (k : Env) (n : Nat) (h : n ≤ 127) :
    charToInt k (toChar (n : Int)) = (n : Int) := by
  unfold charToInt toChar
  simp only []
  split <;> omega


theorem readData_single (k : Env) (s : QCCTV_RemoteCamera) (data : QByteArray)
    (p : QCCTV_RemoteCamera.Fields) (h : QCCTV_RemoteCamera.readFields k data = .ok p) :
    QCCTV_RemoteCamera.readData k [data] s = .ok (QCCTV_RemoteCamera.updateValues k s p) := by
  cases data with
  | nil => cases h
  | cons c cs =>
    have hlen : ¬ (((c :: cs).length : Nat) : Int) ≤ 0 := by
      simp only [List.length_cons]
      omega
    simp only [QCCTV_RemoteCamera.readData, if_neg hlen, h, List.append_nil]

theorem documentedPacket_readFields_of_lengths (k : Env) (name group : QByteArray)
    (fps light status c : Byte) (image : QByteArray)
    (c0 : charToInt k (toChar (name.length : Int)) = (name.length : Int))
    (c2 : charToInt k (toChar (group.length : Int)) = (group.length : Int)) :
    QCCTV_RemoteCamera.readFields k (documentedPacket name group fps light status (c :: image)) =
      .ok { name := String.mk (name.map (toQChar k)), group := String.mk (group.map (toQChar k)),
            fps := charToInt k light, light := charToInt k status, status := charToInt k c,
            imageData := image } := by
  generalize hdata : documentedPacket name group fps light status (c :: image) = data
  have hd : data = [toChar name.length] ++ name ++ [toChar group.length] ++ group
      ++ [fps, light, status] ++ (c :: image) := by rw [← hdata]; rfl
  have e0 : QByteArray.at data 0 = .ok (toChar name.length) :=
    at_of_split data [] _ _ 0 (by simpa using hd) rfl
  have e1 : QCCTV_RemoteCamera.readChars data 1 name.length = .ok name :=
    readChars_of_split name data [toChar name.length] _ 1 _ (by simpa using hd) rfl rfl
  have e2 : QByteArray.at data ((name.length : Int) + 1) = .ok (toChar group.length) :=
    at_of_split data ([toChar name.length] ++ name) _ _ _ (by simpa using hd) (by simp)
  have e3 : QCCTV_RemoteCamera.readChars data ((name.length : Int) + 2) group.length = .ok group :=
    readChars_of_split group data ([toChar name.length] ++ name ++ [toChar group.length]) _ _ _
      (by simpa using hd) (by simp; omega) rfl
  have e4 : QByteArray.at data ((name.length : Int) + (group.length : Int) + 2 + 1) = .ok light :=
    at_of_split data ([toChar name.length] ++ name ++ [toChar group.length] ++ group ++ [fps])
      _ _ _ (by simpa using hd) (by simp; omega)
  have e5 : QByteArray.at data ((name.length : Int) + (group.length : Int) + 2 + 2) = .ok status :=
    at_of_split data
      ([toChar name.length] ++ name ++ [toChar group.length] ++ group ++ [fps, light])
      _ _ _ (by simpa using hd) (by simp; omega)
  have e6 : QByteArray.at data ((name.length : Int) + (group.length : Int) + 2 + 3) = .ok c :=
    at_of_split data
      ([toChar name.length] ++ name ++ [toChar group.length] ++ group ++ [fps, light, status])
      _ _ _ (by simpa using hd) (by simp; omega)
  have hlen : (((data.length : Nat) : Int)
      - ((name.length : Int) + (group.length : Int) + 2 + 4)).toNat = image.length := by
    rw [hd]
    simp only [List.length_append, List.length_cons, List.length_nil]
    omega
  have e7 : QCCTV_RemoteCamera.readChars data
      ((name.length : Int) + (group.length : Int) + 2 + 4) image.length = .ok image :=
    readChars_of_split image data
      ([toChar name.length] ++ name ++ [toChar group.length] ++ group ++ [fps, light, status, c])
      [] _ _ (by simpa using hd) (by simp; omega) rfl
  unfold QCCTV_RemoteCamera.readFields
  simp only [e0, bind, Except.bind, c0, Int.toNat_ofNat, e1, e2, c2, e3, e4, e5, e6, hlen, e7]
  rfl

theorem documentedPacket_readFields (k : Env) (name group : QByteArray)
    (fps light status c : Byte) (image : QByteArray)
    (hn : name.length ≤ 127) (hg : group.length ≤ 127) :
    QCCTV_RemoteCamera.readFields k (documentedPacket name group fps light status (c :: image)) =
      .ok { name := String.mk (name.map (toQChar k)), group := String.mk (group.map (toQChar k)),
            fps := charToInt k light, light := charToInt k status, status := charToInt k c,
            imageData := image } :=
  documentedPacket_readFields_of_lengths k name group fps light status c image
    (charToInt_toChar_small k name.length hn) (charToInt_toChar_small k group.length hg)

theorem setName_snd (s : QCCTV_RemoteCamera) (n : QString) :
    (s.setName n).2 = if s.m_name ≠ n then [Event.newCameraName] else [] := by
  unfold QCCTV_RemoteCamera.setName
  split <;> rfl

theorem setGroup_snd (s : QCCTV_RemoteCamera) (g : QString) :
    (s.setGroup g).2 = if s.m_group ≠ g then [Event.newCameraGroup] else [] := by
  unfold QCCTV_RemoteCamera.setGroup
  split <;> rfl

theorem setLightStatus_snd (s : QCCTV_RemoteCamera) (l : Int) :
    (s.setLightStatus l).2 = if s.m_light_status ≠ l then [Event.newLightStatus] else [] := by
  unfold QCCTV_RemoteCamera.setLightStatus
  split <;> rfl

theorem setName_image (s : QCCTV_RemoteCamera) (n : QString) :
    (s.setName n).1.m_image = s.m_image := by
  unfold QCCTV_RemoteCamera.setName
  split <;> rfl

theorem setGroup_image (s : QCCTV_RemoteCamera) (g : QString) :
    (s.setGroup g).1.m_image = s.m_image := by
  unfold QCCTV_RemoteCamera.setGroup
  split <;> rfl

theorem setLightStatus_image (s : QCCTV_RemoteCamera) (l : Int) :
    (s.setLightStatus l).1.m_image = s.m_image := by
  unfold QCCTV_RemoteCamera.setLightStatus
  split <;> rfl

theorem setCameraStatus_image (k : Env) (s : QCCTV_RemoteCamera) (c : Int) :
    (s.setCameraStatus k c).1.m_image = s.m_image := by
  unfold QCCTV_RemoteCamera.setCameraStatus
  split <;> rfl

theorem setName_status (s : QCCTV_RemoteCamera) (n : QString) :
    (s.setName n).1.m_camera_status = s.m_camera_status := by
  unfold QCCTV_RemoteCamera.setName
  split <;> rfl

theorem setGroup_status (s : QCCTV_RemoteCamera) (g : QString) :
    (s.setGroup g).1.m_camera_status = s.m_camera_status := by
  unfold QCCTV_RemoteCamera.setGroup
  split <;> rfl

theorem setLightStatus_status (s : QCCTV_RemoteCamera) (l : Int) :
    (s.setLightStatus l).1.m_camera_status = s.m_camera_status := by
  unfold QCCTV_RemoteCamera.setLightStatus
  split <;> rfl

theorem setCameraStatus_status (k : Env) (s : QCCTV_RemoteCamera) (c : Int) :
    (s.setCameraStatus k c).1.m_camera_status = c := by
  by_cases h : s.m_camera_status = c
  · rw [setCameraStatus_same k s c h]
    exact h
  · rw [setCameraStatus_diff k s c h]

theorem setCameraStatus_count_connected (k : Env) (s : QCCTV_RemoteCamera) (c : Int) :
    (s.setCameraStatus k c).2.count Event.connected =
      if s.m_camera_status = k.QCCTV_CAMSTATUS_DISCONNECTED
          ∧ c ≠ k.QCCTV_CAMSTATUS_DISCONNECTED then 1 else 0 := by
  by_cases h : s.m_camera_status = c
  · rw [setCameraStatus_same k s c h]
    subst h
    simp
  · rw [setCameraStatus_diff k s c h]
    by_cases h1 : s.m_camera_status = k.QCCTV_CAMSTATUS_DISCONNECTED
    · have h2 : ¬ c = k.QCCTV_CAMSTATUS_DISCONNECTED := fun e => h (h1.trans e.symm)
      rw [if_pos h1, if_neg h2, if_pos ⟨h1, h2⟩]
      rfl
    · have hn : ¬ (s.m_camera_status = k.QCCTV_CAMSTATUS_DISCONNECTED
          ∧ c ≠ k.QCCTV_CAMSTATUS_DISCONNECTED) := fun hc => h1 hc.1
      rw [if_neg h1, if_neg hn]
      split <;> rfl

theorem setCameraStatus_count_newImage (k : Env) (s : QCCTV_RemoteCamera) (c : Int) :
    (s.setCameraStatus k c).2.count Event.newImage = 0 := by
  unfold QCCTV_RemoteCamera.setCameraStatus
  split
  · split <;> split <;> rfl
  · rfl

theorem updateValues_image (k : Env) (s : QCCTV_RemoteCamera) (p : QCCTV_RemoteCamera.Fields) :
    (QCCTV_RemoteCamera.updateValues k s p).1.m_image = k.fromData p.imageData := by
  simp only [QCCTV_RemoteCamera.updateValues, setCameraStatus_image, setLightStatus_image,
    setGroup_image, setName_image]
  rfl

theorem updateValues_status (k : Env) (s : QCCTV_RemoteCamera) (p : QCCTV_RemoteCamera.Fields) :
    (QCCTV_RemoteCamera.updateValues k s p).1.m_camera_status = p.status := by
  simp only [QCCTV_RemoteCamera.updateValues, setCameraStatus_status]

theorem updateValues_count_newImage (k : Env) (s : QCCTV_RemoteCamera)
    (p : QCCTV_RemoteCamera.Fields) :
    (QCCTV_RemoteCamera.updateValues k s p).2.count Event.newImage = 1 := by
  simp only [QCCTV_RemoteCamera.updateValues, List.count_append, setName_snd, setGroup_snd,
    setLightStatus_snd, setCameraStatus_count_newImage]
  split_ifs <;> rfl

theorem updateValues_count_connected (k : Env) (s : QCCTV_RemoteCamera)
    (p : QCCTV_RemoteCamera.Fields) :
    (QCCTV_RemoteCamera.updateValues k s p).2.count Event.connected =
      if s.m_camera_status = k.QCCTV_CAMSTATUS_DISCONNECTED
          ∧ p.status ≠ k.QCCTV_CAMSTATUS_DISCONNECTED then 1 else 0 := by
  simp only [QCCTV_RemoteCamera.updateValues, List.count_append, setName_snd, setGroup_snd,
    setLightStatus_snd, setCameraStatus_count_connected, setLightStatus_status,
    setGroup_status, setName_status]
  simp only [QCCTV_RemoteCamera.setFPS]
  split_ifs <;> rfl

theorem setLightStatus_light (s : QCCTV_RemoteCamera) (l : Int) :
    (s.setLightStatus l).1.m_light_status = l := by
  by_cases h : s.m_light_status = l
  · rw [setLightStatus_same s l h]
    exact h
  · rw [setLightStatus_diff s l h]

theorem setCameraStatus_light (k : Env) (s : QCCTV_RemoteCamera) (c : Int) :
    (s.setCameraStatus k c).1.m_light_status = s.m_light_status := by
  unfold QCCTV_RemoteCamera.setCameraStatus
  split <;> rfl

theorem onCameraTimeout_status (k : Env) (s : QCCTV_RemoteCamera) :
    (QCCTV_RemoteCamera.onCameraTimeout k s).1.m_camera_status =
      k.QCCTV_CAMSTATUS_DISCONNECTED := by
  simp only [QCCTV_RemoteCamera.onCameraTimeout, setCameraStatus_status]

theorem onCameraTimeout_light (k : Env) (s : QCCTV_RemoteCamera) :
    (QCCTV_RemoteCamera.onCameraTimeout k s).1.m_light_status = k.QCCTV_LIGHT_OFF := by
  simp only [QCCTV_RemoteCamera.onCameraTimeout, setCameraStatus_light, setLightStatus_light]

theorem onCameraTimeout_idle (k : Env) (s : QCCTV_RemoteCamera)
    (hl : s.m_light_status = k.QCCTV_LIGHT_OFF)
    (hc : s.m_camera_status = k.QCCTV_CAMSTATUS_DISCONNECTED) :
    QCCTV_RemoteCamera.onCameraTimeout k s = (s, []) := by
  unfold QCCTV_RemoteCamera.onCameraTimeout
  rw [setLightStatus_same s k.QCCTV_LIGHT_OFF hl]
  simp only []
  rw [setCameraStatus_same k s k.QCCTV_CAMSTATUS_DISCONNECTED hc]
  rfl

theorem setCameraStatus_count_disconnected (k : Env) (s : QCCTV_RemoteCamera) (c : Int) :
    (s.setCameraStatus k c).2.count Event.disconnected =
      if s.m_camera_status ≠ k.QCCTV_CAMSTATUS_DISCONNECTED
          ∧ c = k.QCCTV_CAMSTATUS_DISCONNECTED then 1 else 0 := by
  by_cases h : s.m_camera_status = c
  · rw [setCameraStatus_same k s c h]
    subst h
    have hn : ¬ (s.m_camera_status ≠ k.QCCTV_CAMSTATUS_DISCONNECTED
        ∧ s.m_camera_status = k.QCCTV_CAMSTATUS_DISCONNECTED) := fun hc => hc.1 hc.2
    rw [if_neg hn]
    rfl
  · rw [setCameraStatus_diff k s c h]
    by_cases h2 : c = k.QCCTV_CAMSTATUS_DISCONNECTED
    · have h1 : ¬ s.m_camera_status = k.QCCTV_CAMSTATUS_DISCONNECTED :=
        fun e => h (e.trans h2.symm)
      have hp : s.m_camera_status ≠ k.QCCTV_CAMSTATUS_DISCONNECTED
          ∧ c = k.QCCTV_CAMSTATUS_DISCONNECTED := ⟨h1, h2⟩
      rw [if_neg h1, if_pos h2, if_pos hp]
      rfl
    · have hn : ¬ (s.m_camera_status ≠ k.QCCTV_CAMSTATUS_DISCONNECTED
          ∧ c = k.QCCTV_CAMSTATUS_DISCONNECTED) := fun hc => h2 hc.2
      rw [if_neg h2, if_neg hn]
      split <;> rfl

theorem setLightStatus_count_disconnected (s : QCCTV_RemoteCamera) (l : Int) :
    (s.setLightStatus l).2.count Event.disconnected = 0 := by
  rw [setLightStatus_snd]
  split <;> rfl

theorem setLightStatus_count_connected (s : QCCTV_RemoteCamera) (l : Int) :
    (s.setLightStatus l).2.count Event.connected = 0 := by
  rw [setLightStatus_snd]
  split <;> rfl

/-! ## C1: the frame rate -/

/-- C1, as stated, fails: `setFPS (100)` stores 100, not min(60, max(10, 100)) = 60,
and a stream datagram whose FPS byte is 100 leaves `fps()` at 100. -/
theorem C1_setFPS_not_clamped_above :
    (sampleConnected.setFPS 100).fps = 100
      ∧ (sampleConnected.setFPS 100).fps ≠ min 60 (max 10 100)
      ∧ (QCCTV_RemoteCamera.readData sampleEnv [[0, 0, 0, 100, 0, 0]] sampleConnected).map
          (fun r => r.1.fps) = .ok 100 := by
  refine ⟨by decide, by decide, by rfl⟩

/-- C1, amended: for every integer x, after `setFPS (x)` the value returned
by `fps()` is max(10, x), which is min(60, max(10, x)) when x is at most 60 and
x itself above; the FPS value that `readData()` takes from a datagram is
stored the same way. -/
theorem C1_setFPS_lower_clamp (k : Env) (s : QCCTV_RemoteCamera) (x : Int)
    (p : QCCTV_RemoteCamera.Fields) :
    (s.setFPS x).fps = max 10 x
      ∧ (s.setFPS x).fps = (if x ≤ 60 then min 60 (max 10 x) else x)
      ∧ 10 ≤ (s.setFPS x).fps
      ∧ (QCCTV_RemoteCamera.updateValues k s p).1.fps = max 10 p.fps := by
  have h : (s.setFPS x).fps = max 10 x := by
    simp only [QCCTV_RemoteCamera.setFPS, QCCTV_RemoteCamera.fps, qMax_eq_max]
    omega
  refine ⟨h, ?_, ?_, ?_⟩
  · rw [h]; split <;> omega
  · rw [h]; omega
  · simp only [QCCTV_RemoteCamera.updateValues, QCCTV_RemoteCamera.setName,
      QCCTV_RemoteCamera.setGroup, QCCTV_RemoteCamera.setLightStatus,
      QCCTV_RemoteCamera.setCameraStatus, QCCTV_RemoteCamera.setFPS,
      QCCTV_RemoteCamera.fps, qMax_eq_max]
    split_ifs <;> simp only [] <;> omega

/-! ## C2: the signals of a status change -/

/-- C2: for every current status and every argument `new`, `setCameraStatus
(new)` emits `connected` exactly when the old status is Disconnected and `new`
is not, emits `disconnected` exactly when the old status is not Disconnected
and `new` is, and emits `newCameraStatus` exactly when `new` differs from the
old status; it emits no signal twice and no other signal, stores `new`, and
when `new` equals the old status it emits nothing and leaves the state as it
was. -/
theorem C2_setCameraStatus_signals (k : Env) (s : QCCTV_RemoteCamera) (new : Int) :
    (Event.connected ∈ (s.setCameraStatus k new).2 ↔
        (s.cameraStatus = k.QCCTV_CAMSTATUS_DISCONNECTED
          ∧ new ≠ k.QCCTV_CAMSTATUS_DISCONNECTED))
      ∧ (Event.disconnected ∈ (s.setCameraStatus k new).2 ↔
        (s.cameraStatus ≠ k.QCCTV_CAMSTATUS_DISCONNECTED
          ∧ new = k.QCCTV_CAMSTATUS_DISCONNECTED))
      ∧ (Event.newCameraStatus ∈ (s.setCameraStatus k new).2 ↔ new ≠ s.cameraStatus)
      ∧ (s.setCameraStatus k new).2.Nodup
      ∧ (∀ e ∈ (s.setCameraStatus k new).2,
          e = Event.connected ∨ e = Event.disconnected ∨ e = Event.newCameraStatus)
      ∧ (s.setCameraStatus k new).1.cameraStatus = new
      ∧ (new = s.cameraStatus → s.setCameraStatus k new = (s, [])) := by
  unfold QCCTV_RemoteCamera.cameraStatus
  by_cases h : s.m_camera_status = new
  · rw [setCameraStatus_same k s new h]
    subst h
    simp
  · rw [setCameraStatus_diff k s new h]
    have h3 : ¬ new = s.m_camera_status := fun e => h e.symm
    by_cases h1 : s.m_camera_status = k.QCCTV_CAMSTATUS_DISCONNECTED
    · have h2 : ¬ new = k.QCCTV_CAMSTATUS_DISCONNECTED := fun e => h (h1.trans e.symm)
      rw [if_pos h1, if_neg h2]
      refine ⟨?_, ?_, ?_, ?_, ?_, rfl, fun e => absurd e h3⟩
      · exact ⟨fun _ => ⟨h1, h2⟩, fun _ => by simp⟩
      · exact ⟨fun hm => by simp at hm, fun hm => absurd hm.2 h2⟩
      · exact ⟨fun _ => h3, fun _ => by simp⟩
      · simp
      · intro e he
        simp at he
        tauto
    · by_cases h2 : new = k.QCCTV_CAMSTATUS_DISCONNECTED
      · rw [if_neg h1, if_pos h2]
        refine ⟨?_, ?_, ?_, ?_, ?_, rfl, fun e => absurd e h3⟩
        · exact ⟨fun hm => by simp at hm, fun hm => absurd hm.1 h1⟩
        · exact ⟨fun _ => ⟨h1, h2⟩, fun _ => by simp⟩
        · exact ⟨fun _ => h3, fun _ => by simp⟩
        · simp
        · intro e he
          simp at he
          tauto
      · rw [if_neg h1, if_neg h2]
        refine ⟨?_, ?_, ?_, ?_, ?_, rfl, fun e => absurd e h3⟩
        · exact ⟨fun hm => by simp at hm, fun hm => absurd hm.1 h1⟩
        · exact ⟨fun hm => by simp at hm, fun hm => absurd hm.2 h2⟩
        · exact ⟨fun _ => h3, fun _ => by simp⟩
        · simp
        · intro e he
          simp at he
          tauto

/-! ## `sendData()` and the focus flag -/

/-- Nothing in `sendData()` clears the focus flag: `requestFocus()` raises it
and arms the 2000 ms timer for `resetFocusRequest()`; however many `sendData()`
calls follow with no `resetFocusRequest()` in between, the flag stays raised
and every command datagram written carries the force-focus byte; the datagram
written after `resetFocusRequest()` carries focus = 0x00. This is about the
calls alone; how many of them the event loop makes before the reset timer is
the subject of the section on C3. -/
theorem sendData_keeps_focus (k : Env) (s : QCCTV_RemoteCamera) (n : Nat) :
    s.requestFocus.2 = [Event.singleShot 2000 Slot.resetFocusRequest]
      ∧ (QCCTV_RemoteCamera.sendDataTicks k n s.requestFocus.1).1.m_focus = true
      ∧ (∀ d ∈ datagrams (QCCTV_RemoteCamera.sendDataTicks k n s.requestFocus.1).2,
          d.get? 2 = some (toChar k.QCCTV_FORCE_FOCUS))
      ∧ (datagrams (QCCTV_RemoteCamera.sendDataTicks k n s.requestFocus.1).2).length =
          (if s.address ≠ none ∧ s.cameraStatus ≠ k.QCCTV_CAMSTATUS_DISCONNECTED then n else 0)
      ∧ (∀ d ∈ datagrams (QCCTV_RemoteCamera.sendData k
            (QCCTV_RemoteCamera.sendDataTicks k n s.requestFocus.1).1.resetFocusRequest.1).2,
          d.get? 2 = some 0) := by
  refine ⟨rfl, ?_, ?_, ?_, ?_⟩
  · rw [sendDataTicks_fst]; rfl
  · intro d hd
    rw [datagrams_sendDataTicks] at hd
    rw [List.eq_of_mem_replicate hd]
    rfl
  · rw [datagrams_sendDataTicks]
    simp only [List.length_replicate]
    rfl
  · intro d hd
    rw [datagrams_sendData] at hd
    split at hd
    · rw [List.mem_singleton] at hd
      rw [hd]
      rfl
    · cases hd

/-! ## C4: the command datagram -/

/-- C4, as stated, fails: the command datagram of a connected session is the
three bytes fps, light status, focus, not six bytes. -/
theorem C4_command_datagram_has_three_bytes :
    datagrams (QCCTV_RemoteCamera.sendData sampleEnv sampleConnected).2 = [[24, 0, 0]]
      ∧ (QCCTV_RemoteCamera.commandData sampleEnv sampleConnected).length ≠ 6 := by
  decide

/-- C4, amended: for every session state, the command datagram built by
`sendData()` is exactly 3 bytes long, laid out in order as fps, light status,
focus: byte 0 is `fps()` converted to `char` (equal to `fps()` when that lies
in 0..255), byte 1 is the light status, and the focus byte is
`QCCTV_FORCE_FOCUS` when a focus request is pending and 0x00 otherwise; a
datagram that `sendData()` writes is this one. -/
theorem C4_command_datagram_layout (k : Env) (s : QCCTV_RemoteCamera) :
    (QCCTV_RemoteCamera.commandData k s).length = 3
      ∧ (QCCTV_RemoteCamera.commandData k s).get? 0 = some (toChar s.fps)
      ∧ ((0 ≤ s.fps ∧ s.fps < 256) →
          (QCCTV_RemoteCamera.commandData k s).map (fun c => (c.val : Int)) =
            [s.fps, ((toChar s.lightStatus).val : Int),
             ((toChar (if s.m_focus = true then k.QCCTV_FORCE_FOCUS else 0)).val : Int)])
      ∧ (QCCTV_RemoteCamera.commandData k s).get? 1 = some (toChar s.lightStatus)
      ∧ (QCCTV_RemoteCamera.commandData k s).get? 2 =
          some (if s.m_focus = true then toChar k.QCCTV_FORCE_FOCUS else 0)
      ∧ (∀ d ∈ datagrams (QCCTV_RemoteCamera.sendData k s).2,
          d = QCCTV_RemoteCamera.commandData k s) := by
  refine ⟨rfl, rfl, ?_, rfl, ?_, ?_⟩
  · rintro ⟨h0, h1⟩
    simp only [QCCTV_RemoteCamera.commandData, List.map_cons, List.map_nil,
      toChar_val_of_range _ h0 h1]
  · cases hf : s.m_focus <;> simp [QCCTV_RemoteCamera.commandData, hf]
    rfl
  · intro d hd
    rw [datagrams_sendData] at hd
    split at hd
    · exact List.mem_singleton.mp hd
    · cases hd

/-! ## C5: the documented stream layout -/

/-- C5, the code against the layout documented above `readData()`: for every
datagram laid out as documented (name and group of at most 127 bytes, at least
one image byte), `readData()` reads every field after the group one byte late:
it passes the light status byte to `setFPS`, the operation status byte to
`setLightStatus`, the first image byte to `setCameraStatus`, and hands the
image bytes without their first byte to the decoder; the FPS byte is never
read. -/
theorem C5_readData_reads_one_byte_late (k : Env) (s : QCCTV_RemoteCamera)
    (name group : QByteArray) (fps light status c : Byte) (image : QByteArray)
    (hn : name.length ≤ 127) (hg : group.length ≤ 127) :
    QCCTV_RemoteCamera.readData k
        [documentedPacket name group fps light status (c :: image)] s =
      .ok (QCCTV_RemoteCamera.updateValues k s
        { name := String.mk (name.map (toQChar k)), group := String.mk (group.map (toQChar k)),
          fps := charToInt k light, light := charToInt k status, status := charToInt k c,
          imageData := image }) :=
  readData_single k s _ _
    (documentedPacket_readFields k name group fps light status c image hn hg)

/-- C5 at the failing input: the documented datagram for name "A", group "B",
FPS 24, light status 1, operation status 0 and the image bytes FF D8 42 leaves
`fps()` at 10 (from the light byte 1), the light status at 0 (from the status
byte), the camera status at -1 (from the image byte FF), and the decoder, given
only D8 42, returns the null image. -/
theorem C5_readData_reads_one_byte_late_witness :
    QCCTV_RemoteCamera.readData sampleEnv
        [documentedPacket [65] [66] 24 1 0 [0xFF, 0xD8, 0x42]] sampleConnected =
      .ok ({ m_fps := 10, m_requestPackets := 0, m_focus := false, m_group := "B",
             m_name := "A", m_light_status := 0, m_camera_status := -1, m_image := none,
             m_address := some 7 },
           [Event.newImage, Event.newCameraName, Event.newCameraGroup,
            Event.newCameraStatus]) :=
  (C5_readData_reads_one_byte_late sampleEnv sampleConnected [65] [66] 24 1 0 0xFF
    [0xD8, 0x42] (by decide) (by decide)).trans (by rfl)

/-! ## C6: the current image -/

/-- C6, as stated, fails: the documented datagram of camera "cam1", group
"default" with the image bytes 01 02, which do not decode (nor does the part
02 of them that `readData()` hands to the decoder), replaces the current image
of the session by the null image and emits `newImage`. -/
theorem C6_failed_decode_replaces_image :
    sampleEnv.fromData [1, 2] = none
      ∧ sampleEnv.fromData [2] = none
      ∧ sampleConnected.currentImage = some [1, 2, 3]
      ∧ QCCTV_RemoteCamera.readData sampleEnv
          [documentedPacket [99, 97, 109, 49] [100, 101, 102, 97, 117, 108, 116] 24 0 0 [1, 2]]
          sampleConnected =
          .ok ({ m_fps := 10, m_requestPackets := 0, m_focus := false, m_group := "default",
                 m_name := "cam1", m_light_status := 0, m_camera_status := 1,
                 m_image := none, m_address := some 7 },
               [Event.newImage, Event.newCameraStatus]) := by
  refine ⟨by rfl, by rfl, by rfl, by rfl⟩

/-- C6, amended: the current image is always the result of the most recent
decode, successful or not: for every received datagram that `readData()` takes
apart, `currentImage()` becomes what the decoder returns for its image bytes
(the null image when they fail to decode) and `newImage` is emitted exactly
once. -/
theorem C6_readData_stores_every_decode_result (k : Env) (s : QCCTV_RemoteCamera)
    (data : QByteArray) (p : QCCTV_RemoteCamera.Fields)
    (h : QCCTV_RemoteCamera.readFields k data = .ok p) :
    ∃ r, QCCTV_RemoteCamera.readData k [data] s = .ok r
      ∧ r.1.currentImage = k.fromData p.imageData
      ∧ r.2.count Event.newImage = 1 :=
  ⟨_, readData_single k s data p h, updateValues_image k s p,
    updateValues_count_newImage k s p⟩

/-- C6 amended, at a concrete datagram: the image bytes handed to the decoder
fail to decode, the current image becomes null and `newImage` is emitted
once. -/
theorem C6_readData_stores_every_decode_result_witness :
    ∃ r, QCCTV_RemoteCamera.readData sampleEnv
          [documentedPacket [99, 97, 109, 49] [100, 101, 102, 97, 117, 108, 116] 24 0 0 [1, 2]]
          sampleConnected = .ok r
      ∧ r.1.currentImage = sampleEnv.fromData [2]
      ∧ r.2.count Event.newImage = 1 :=
  C6_readData_stores_every_decode_result sampleEnv sampleConnected
    (documentedPacket [99, 97, 109, 49] [100, 101, 102, 97, 117, 108, 116] 24 0 0 [1, 2])
    { name := "cam1", group := "default", fps := 0, light := 0, status := 1, imageData := [2] }
    (by rfl)

/-! ## C7: the first packet of a disconnected session -/

/-- C7, as stated, fails: a disconnected session that receives the documented
datagram of camera "cam1" whose operation status byte is Disconnected (0x10),
followed by the image byte 0x10 that `readData()` takes for the status, stays
Disconnected and emits no `connected`. -/
theorem C7_packet_reporting_disconnected_does_not_connect :
    sampleDisconnected.cameraStatus = sampleEnv.QCCTV_CAMSTATUS_DISCONNECTED
      ∧ QCCTV_RemoteCamera.readData sampleEnv
          [documentedPacket [99, 97, 109, 49] [100, 101, 102, 97, 117, 108, 116] 24 0 16 [16]]
          sampleDisconnected =
          .ok ({ m_fps := 10, m_requestPackets := 0, m_focus := false, m_group := "default",
                 m_name := "cam1", m_light_status := 16, m_camera_status := 16,
                 m_image := none, m_address := some 7 },
               [Event.newImage, Event.newLightStatus]) := by
  refine ⟨by rfl, by rfl⟩

/-- C7, amended: for every session whose status is Disconnected and every
stream datagram that `readData()` takes apart, if the status value read from
the datagram is not Disconnected, processing it leaves the session in that
non-Disconnected status and emits `connected` exactly once; if the status value
read is Disconnected, the session stays Disconnected and `connected` is not
emitted. -/
theorem C7_first_packet_connects_unless_disconnected (k : Env) (s : QCCTV_RemoteCamera)
    (data : QByteArray) (p : QCCTV_RemoteCamera.Fields)
    (hs : s.cameraStatus = k.QCCTV_CAMSTATUS_DISCONNECTED)
    (h : QCCTV_RemoteCamera.readFields k data = .ok p) :
    ∃ r, QCCTV_RemoteCamera.readData k [data] s = .ok r
      ∧ r.1.cameraStatus = p.status
      ∧ (p.status ≠ k.QCCTV_CAMSTATUS_DISCONNECTED →
          r.1.cameraStatus ≠ k.QCCTV_CAMSTATUS_DISCONNECTED
            ∧ r.2.count Event.connected = 1)
      ∧ (p.status = k.QCCTV_CAMSTATUS_DISCONNECTED →
          r.1.cameraStatus = k.QCCTV_CAMSTATUS_DISCONNECTED
            ∧ r.2.count Event.connected = 0) := by
  have hs1 : s.m_camera_status = k.QCCTV_CAMSTATUS_DISCONNECTED := hs
  refine ⟨_, readData_single k s data p h, updateValues_status k s p, ?_, ?_⟩
  · intro hp
    refine ⟨?_, ?_⟩
    · unfold QCCTV_RemoteCamera.cameraStatus
      rw [updateValues_status]
      exact hp
    · rw [updateValues_count_connected, if_pos ⟨hs1, hp⟩]
  · intro hp
    refine ⟨?_, ?_⟩
    · unfold QCCTV_RemoteCamera.cameraStatus
      rw [updateValues_status]
      exact hp
    · rw [updateValues_count_connected, if_neg (fun hc => hc.2 hp)]

/-- C7 amended, at a concrete datagram: the disconnected session receives the
documented datagram of camera "cam1" with the image bytes FF D8; the status
value read is -1, the session leaves Disconnected and `connected` is emitted
once. -/
theorem C7_first_packet_connects_unless_disconnected_witness :
    ∃ r, QCCTV_RemoteCamera.readData sampleEnv
          [documentedPacket [99, 97, 109, 49] [100, 101, 102, 97, 117, 108, 116] 24 0 0
            [0xFF, 0xD8]]
          sampleDisconnected = .ok r
      ∧ r.1.cameraStatus = -1
      ∧ ((-1 : Int) ≠ sampleEnv.QCCTV_CAMSTATUS_DISCONNECTED →
          r.1.cameraStatus ≠ sampleEnv.QCCTV_CAMSTATUS_DISCONNECTED
            ∧ r.2.count Event.connected = 1)
      ∧ ((-1 : Int) = sampleEnv.QCCTV_CAMSTATUS_DISCONNECTED →
          r.1.cameraStatus = sampleEnv.QCCTV_CAMSTATUS_DISCONNECTED
            ∧ r.2.count Event.connected = 0) :=
  C7_first_packet_connects_unless_disconnected sampleEnv sampleDisconnected
    (documentedPacket [99, 97, 109, 49] [100, 101, 102, 97, 117, 108, 116] 24 0 0 [0xFF, 0xD8])
    { name := "cam1", group := "default", fps := 0, light := 0, status := -1,
      imageData := [0xD8] }
    (by rfl) (by rfl)

/-! ## C8: the camera timeout -/

/-- C8: for every session whose status is not Disconnected, `onCameraTimeout()`
sets the camera status to Disconnected and the light status to Off and emits
`disconnected` exactly once (and no `connected`); calling `onCameraTimeout()`
again immediately afterwards emits no signal and leaves the state unchanged. -/
theorem C8_onCameraTimeout_disconnects_once (k : Env) (s : QCCTV_RemoteCamera)
    (hs : s.cameraStatus ≠ k.QCCTV_CAMSTATUS_DISCONNECTED) :
    (QCCTV_RemoteCamera.onCameraTimeout k s).1.cameraStatus = k.QCCTV_CAMSTATUS_DISCONNECTED
      ∧ (QCCTV_RemoteCamera.onCameraTimeout k s).1.lightStatus = k.QCCTV_LIGHT_OFF
      ∧ (QCCTV_RemoteCamera.onCameraTimeout k s).2.count Event.disconnected = 1
      ∧ (QCCTV_RemoteCamera.onCameraTimeout k s).2.count Event.connected = 0
      ∧ QCCTV_RemoteCamera.onCameraTimeout k (QCCTV_RemoteCamera.onCameraTimeout k s).1 =
          ((QCCTV_RemoteCamera.onCameraTimeout k s).1, []) := by
  have hs1 : ¬ s.m_camera_status = k.QCCTV_CAMSTATUS_DISCONNECTED := hs
  have hc := onCameraTimeout_status k s
  have hl := onCameraTimeout_light k s
  refine ⟨hc, hl, ?_, ?_, onCameraTimeout_idle k _ hl hc⟩
  · simp only [QCCTV_RemoteCamera.onCameraTimeout, List.count_append,
      setLightStatus_count_disconnected, setCameraStatus_count_disconnected,
      setLightStatus_status]
    rw [if_pos ⟨hs1, trivial⟩]
  · simp only [QCCTV_RemoteCamera.onCameraTimeout, List.count_append,
      setLightStatus_count_connected, setCameraStatus_count_connected,
      setLightStatus_status]
    rw [if_neg (fun h => hs1 h.1)]

/-- C8 at a concrete session: the connected sample session times out. -/
theorem C8_onCameraTimeout_disconnects_once_witness :
    (QCCTV_RemoteCamera.onCameraTimeout sampleEnv sampleConnected).1.cameraStatus = 16
      ∧ (QCCTV_RemoteCamera.onCameraTimeout sampleEnv sampleConnected).1.lightStatus = 0
      ∧ (QCCTV_RemoteCamera.onCameraTimeout sampleEnv sampleConnected).2.count
          Event.disconnected = 1
      ∧ (QCCTV_RemoteCamera.onCameraTimeout sampleEnv sampleConnected).2.count
          Event.connected = 0
      ∧ QCCTV_RemoteCamera.onCameraTimeout sampleEnv
          (QCCTV_RemoteCamera.onCameraTimeout sampleEnv sampleConnected).1 =
          ((QCCTV_RemoteCamera.onCameraTimeout sampleEnv sampleConnected).1, []) :=
  C8_onCameraTimeout_disconnects_once sampleEnv sampleConnected (by decide)

/-! ## C9: the command tick -/

/-- C9, as stated, fails: `sendData()` on the freshly constructed session (no
address, Disconnected) and on a disconnected session that has an address
writes no datagram at all; it only arms the next tick. -/
theorem C9_no_datagram_while_disconnected :
    QCCTV_RemoteCamera.sendData sampleEnv (QCCTV_RemoteCamera.QCCTV_RemoteCamera sampleEnv).1 =
        ((QCCTV_RemoteCamera.QCCTV_RemoteCamera sampleEnv).1,
         [Event.singleShot 500 Slot.sendData])
      ∧ datagrams (QCCTV_RemoteCamera.sendData sampleEnv sampleDisconnected).2 = [] := by
  refine ⟨by rfl, by rfl⟩

/-- C9, amended: for every session state, each call of `sendData()` writes
exactly one command datagram (the generated data, to the camera address on the
command port) when the address is not null and the camera status is not
Disconnected, whatever the focus flag and the other values are, and writes
none otherwise; in both cases the state is unchanged and the next call is
armed 500 ms later. -/
theorem C9_sendData_one_datagram_when_connected (k : Env) (s : QCCTV_RemoteCamera) :
    (datagrams (QCCTV_RemoteCamera.sendData k s).2).length =
        (if s.address ≠ none ∧ s.cameraStatus ≠ k.QCCTV_CAMSTATUS_DISCONNECTED then 1 else 0)
      ∧ ((s.address ≠ none ∧ s.cameraStatus ≠ k.QCCTV_CAMSTATUS_DISCONNECTED) →
          (QCCTV_RemoteCamera.sendData k s).2 =
            [Event.writeDatagram (QCCTV_RemoteCamera.commandData k s) s.address
               k.QCCTV_COMMAND_PORT,
             Event.singleShot 500 Slot.sendData])
      ∧ (¬ (s.address ≠ none ∧ s.cameraStatus ≠ k.QCCTV_CAMSTATUS_DISCONNECTED) →
          (QCCTV_RemoteCamera.sendData k s).2 = [Event.singleShot 500 Slot.sendData])
      ∧ (QCCTV_RemoteCamera.sendData k s).1 = s := by
  refine ⟨?_, ?_, ?_, rfl⟩
  · rw [datagrams_sendData]
    unfold QCCTV_RemoteCamera.address QCCTV_RemoteCamera.cameraStatus
    split <;> rfl
  · intro h
    unfold QCCTV_RemoteCamera.sendData
    rw [if_pos h]
    rfl
  · intro h
    unfold QCCTV_RemoteCamera.sendData
    rw [if_neg h]
    rfl

/-! ## C10: datagrams that are too short -/

/-- C10, the code at the failing input: the 1-byte datagram 05 is not
rejected; `readData()` goes on to read the name at index 1, outside the
datagram, whether plain `char` is signed or not. The documented datagram with
empty name, group and image (00 00 18 00 00) is read at index 5, one past its
end. Where `char` is signed, the 3-byte datagram 01 41 FC, too short for the
status bytes, is taken apart without fault and updates name, FPS, light status
and camera status. -/
theorem C10_short_datagram_read_out_of_range :
    QCCTV_RemoteCamera.readData sampleEnv [[5]] sampleConnected
        = .error (Fault.outOfRange 1 1)
      ∧ QCCTV_RemoteCamera.readData { sampleEnv with charSigned := false } [[5]] sampleConnected
        = .error (Fault.outOfRange 1 1)
      ∧ QCCTV_RemoteCamera.readData sampleEnv [documentedPacket [] [] 24 0 0 []] sampleConnected
        = .error (Fault.outOfRange 5 5)
      ∧ QCCTV_RemoteCamera.readData sampleEnv [[1, 65, 0xFC]] sampleConnected
        = .ok ({ m_fps := 10, m_requestPackets := 0, m_focus := false, m_group := "default",
                 m_name := "A", m_light_status := 65, m_camera_status := -4,
                 m_image := none, m_address := some 7 },
               [Event.newImage, Event.newCameraName, Event.newCameraGroup,
                Event.newLightStatus, Event.newCameraStatus]) := by
  refine ⟨by rfl, by rfl, by rfl, by rfl⟩

/-! ## Lemmas for the request ticks and the call sequences -/

theorem writes_append (xs ys : List Event) :
    writes (xs ++ ys) = writes xs ++ writes ys := by
  induction xs with
  | nil => rfl
  | cons e es ih => cases e <;> simp [writes, ih]

theorem sendRequest_pending (k : Env) (s : QCCTV_RemoteCamera) (h : 0 < s.m_requestPackets) :
    s.sendRequest k =
      ({ s with m_requestPackets := s.m_requestPackets - 1 },
       [Event.writeDatagram (QCCTV_RemoteCamera.toUtf8 s.m_group) s.m_address
          k.QCCTV_REQUEST_PORT,
        Event.singleShot 500 Slot.sendRequest]) := by
  unfold QCCTV_RemoteCamera.sendRequest
  rw [if_pos h]
  rfl

theorem sendRequest_idle (k : Env) (s : QCCTV_RemoteCamera) (h : ¬ 0 < s.m_requestPackets) :
    s.sendRequest k = (s, [Event.singleShot 500 Slot.sendRequest]) := by
  unfold QCCTV_RemoteCamera.sendRequest
  rw [if_neg h]

theorem sendRequestTicks_spec (k : Env) (n : Nat) :
    ∀ (s : QCCTV_RemoteCamera) (c : Nat), s.m_requestPackets = (c : Int) →
      (QCCTV_RemoteCamera.sendRequestTicks k n s).1 =
          { s with m_requestPackets := ((c - min n c : Nat) : Int) }
        ∧ writes (QCCTV_RemoteCamera.sendRequestTicks k n s).2 =
          List.replicate (min n c)
            (QCCTV_RemoteCamera.toUtf8 s.m_group, s.m_address, k.QCCTV_REQUEST_PORT) := by
  induction n with
  | zero =>
    intro s c hc
    refine ⟨?_, ?_⟩
    · simp only [QCCTV_RemoteCamera.sendRequestTicks, Nat.zero_min, Nat.sub_zero, ← hc]
    · simp only [QCCTV_RemoteCamera.sendRequestTicks, Nat.zero_min, List.replicate_zero, writes]
  | succ n ih =>
    intro s c hc
    cases c with
    | zero =>
      have hidle : ¬ 0 < s.m_requestPackets := by rw [hc]; simp
      have h0 := ih s 0 hc
      simp only [QCCTV_RemoteCamera.sendRequestTicks, sendRequest_idle k s hidle,
        writes_append, h0.1, h0.2, Nat.min_zero, Nat.sub_zero, List.replicate_zero]
      exact ⟨trivial, rfl⟩
    | succ c =>
      have hpos : 0 < s.m_requestPackets := by rw [hc]; omega
      have hc1 : ({ s with m_requestPackets := s.m_requestPackets - 1 } :
          QCCTV_RemoteCamera).m_requestPackets = (c : Int) := by
        show s.m_requestPackets - 1 = (c : Int)
        rw [hc]
        omega
      have h1 := ih _ c hc1
      have hmin : min (n + 1) (c + 1) = min n c + 1 := by omega
      simp only [QCCTV_RemoteCamera.sendRequestTicks, sendRequest_pending k s hpos,
        writes_append, h1.1, h1.2, hmin, List.replicate_succ]
      refine ⟨?_, rfl⟩
      have e : c + 1 - (min n c + 1) = c - min n c := by omega
      rw [e]

theorem storedName_ne_empty (name fallback : QString) (hf : fallback ≠ "") :
    (if name.isEmpty = true then fallback else name) ≠ "" := by
  by_cases h : name.isEmpty = true
  · rw [if_pos h]
    exact hf
  · rw [if_neg h]
    exact fun e => h ((String.isEmpty_iff name).mpr e)

theorem wellFormed_setFPS (s : QCCTV_RemoteCamera) (fps : Int) (h : wellFormed s) :
    wellFormed (s.setFPS fps) := h

theorem wellFormed_setName (s : QCCTV_RemoteCamera) (name : QString) (h : wellFormed s) :
    wellFormed (s.setName name).1 := by
  unfold QCCTV_RemoteCamera.setName
  split
  · exact ⟨h.1, storedName_ne_empty name "Unknown Camera" (by decide), h.2.2⟩
  · exact h

theorem wellFormed_setGroup (s : QCCTV_RemoteCamera) (group : QString) (h : wellFormed s) :
    wellFormed (s.setGroup group).1 := by
  unfold QCCTV_RemoteCamera.setGroup
  split
  · exact ⟨h.1, h.2.1, storedName_ne_empty group "default" (by decide)⟩
  · exact h

theorem wellFormed_setLightStatus (s : QCCTV_RemoteCamera) (status : Int)
    (h : wellFormed s) : wellFormed (s.setLightStatus status).1 := by
  unfold QCCTV_RemoteCamera.setLightStatus
  split
  · exact h
  · exact h

theorem wellFormed_setCameraStatus (k : Env) (s : QCCTV_RemoteCamera) (status : Int)
    (h : wellFormed s) : wellFormed (s.setCameraStatus k status).1 := by
  unfold QCCTV_RemoteCamera.setCameraStatus
  split
  · exact h
  · exact h

theorem wellFormed_sendRequest (k : Env) (s : QCCTV_RemoteCamera) (h : wellFormed s) :
    wellFormed (s.sendRequest k).1 := by
  by_cases hp : 0 < s.m_requestPackets
  · rw [sendRequest_pending k s hp]
    refine ⟨?_, h.2.1, h.2.2⟩
    show 0 ≤ s.m_requestPackets - 1
    omega
  · rw [sendRequest_idle k s hp]
    exact h

theorem wellFormed_updateValues (k : Env) (s : QCCTV_RemoteCamera)
    (p : QCCTV_RemoteCamera.Fields) (h : wellFormed s) :
    wellFormed (QCCTV_RemoteCamera.updateValues k s p).1 := by
  have h0 : wellFormed ({ s with m_image := k.fromData p.imageData } : QCCTV_RemoteCamera) := h
  exact wellFormed_setCameraStatus k _ _ (wellFormed_setLightStatus _ _
    (wellFormed_setGroup _ _ (wellFormed_setName _ _ (wellFormed_setFPS _ p.fps h0))))

theorem wellFormed_readData (k : Env) (pending : List QByteArray) :
    ∀ (s : QCCTV_RemoteCamera) (r : QCCTV_RemoteCamera × List Event), wellFormed s →
      QCCTV_RemoteCamera.readData k pending s = .ok r → wellFormed r.1 := by
  induction pending with
  | nil =>
    intro s r h hr
    simp only [QCCTV_RemoteCamera.readData, Except.ok.injEq] at hr
    rw [← hr]
    exact h
  | cons data rest ih =>
    intro s r h hr
    unfold QCCTV_RemoteCamera.readData at hr
    split at hr
    · simp only [Except.ok.injEq] at hr
      rw [← hr]
      exact h
    · split at hr
      · cases hr
      · rename_i p hp
        split at hr
        · cases hr
        · rename_i r2 hr2
          simp only [Except.ok.injEq] at hr
          rw [← hr]
          exact ih _ r2 (wellFormed_updateValues k s p h) hr2

theorem wellFormed_call (k : Env) (s : QCCTV_RemoteCamera) (c : Call)
    (r : QCCTV_RemoteCamera × List Event) (h : wellFormed s)
    (hr : QCCTV_RemoteCamera.call k s c = .ok r) : wellFormed r.1 := by
  cases c with
  | readData pending => exact wellFormed_readData k pending s r h hr
  | requestFocus =>
    simp only [QCCTV_RemoteCamera.call, Except.ok.injEq] at hr
    rw [← hr]
    exact h
  | setFPS fps =>
    simp only [QCCTV_RemoteCamera.call, Except.ok.injEq] at hr
    rw [← hr]
    exact h
  | attemptConnection address =>
    simp only [QCCTV_RemoteCamera.call, Except.ok.injEq] at hr
    rw [← hr]
    refine ⟨?_, h.2.1, h.2.2⟩
    show (0 : Int) ≤ 10
    decide
  | setLightStatus status =>
    simp only [QCCTV_RemoteCamera.call, Except.ok.injEq] at hr
    rw [← hr]
    exact wellFormed_setLightStatus s status h
  | setCameraStatus status =>
    simp only [QCCTV_RemoteCamera.call, Except.ok.injEq] at hr
    rw [← hr]
    exact wellFormed_setCameraStatus k s status h
  | sendData =>
    simp only [QCCTV_RemoteCamera.call, Except.ok.injEq] at hr
    rw [← hr]
    exact h
  | sendRequest =>
    simp only [QCCTV_RemoteCamera.call, Except.ok.injEq] at hr
    rw [← hr]
    exact wellFormed_sendRequest k s h
  | onCameraTimeout =>
    simp only [QCCTV_RemoteCamera.call, Except.ok.injEq] at hr
    rw [← hr]
    exact wellFormed_setCameraStatus k _ _ (wellFormed_setLightStatus s _ h)
  | resetFocusRequest =>
    simp only [QCCTV_RemoteCamera.call, Except.ok.injEq] at hr
    rw [← hr]
    exact h
  | setName name =>
    simp only [QCCTV_RemoteCamera.call, Except.ok.injEq] at hr
    rw [← hr]
    exact wellFormed_setName s name h
  | setGroup group =>
    simp only [QCCTV_RemoteCamera.call, Except.ok.injEq] at hr
    rw [← hr]
    exact wellFormed_setGroup s group h

theorem wellFormed_calls (k : Env) (cs : List Call) :
    ∀ (s : QCCTV_RemoteCamera) (r : QCCTV_RemoteCamera × List Event), wellFormed s →
      QCCTV_RemoteCamera.calls k cs s = .ok r → wellFormed r.1 := by
  induction cs with
  | nil =>
    intro s r h hr
    simp only [QCCTV_RemoteCamera.calls, Except.ok.injEq] at hr
    rw [← hr]
    exact h
  | cons c rest ih =>
    intro s r h hr
    unfold QCCTV_RemoteCamera.calls at hr
    split at hr
    · cases hr
    · rename_i r1 hr1
      split at hr
      · cases hr
      · rename_i r2 hr2
        simp only [Except.ok.injEq] at hr
        rw [← hr]
        exact ih _ r2 (wellFormed_call k s c r1 h hr1) hr2

theorem wellFormed_constructor (k : Env) :
    wellFormed (QCCTV_RemoteCamera.QCCTV_RemoteCamera k).1 := by
  refine ⟨?_, ?_, ?_⟩
  · show (0 : Int) ≤ 0
    decide
  · show ("Unknown Camera" : String) ≠ ""
    decide
  · show ("default" : String) ≠ ""
    decide

/-! ## Lemmas for the name and group fields -/

theorem charToInt_toChar_fits (k : Env) (n : Nat) (h : fitsLength k n) :
    charToInt k (toChar (n : Int)) = (n : Int) := by
  rcases h with h | ⟨hs, h⟩
  · exact charToInt_toChar_small k n h
  · have hc : ¬ (k.charSigned = true ∧ 128 ≤ (toChar (n : Int)).val) := by
      rw [hs]
      exact fun hx => Bool.noConfusion hx.1
    unfold charToInt
    rw [if_neg hc]
    unfold toChar
    simp only []
    omega

theorem char_ofNat_val (n : Nat) (h : n < 128) : (Char.ofNat n).val.toNat = n := by
  have hv : n.isValidChar := Or.inl (by omega)
  simp [Char.ofNat, hv, Char.ofNatAux, UInt32.toNat]

theorem toQChar_of_plain (k : Env) (b : Byte) (h : b.val < 128 ∨ k.charSigned = false) :
    toQChar k b = Char.ofNat b.val := by
  have hc : ¬ (k.charSigned = true ∧ 128 ≤ b.val) := by
    rcases h with h | h
    · exact fun hx => absurd hx.2 (by omega)
    · rw [h]
      exact fun hx => Bool.noConfusion hx.1
  have hb : b.val < 256 := b.isLt
  unfold toQChar charToInt
  rw [if_neg hc]
  congr 1
  omega

theorem utf8_ascii_byte (k : Env) (b : Byte) (h : b.val < 128) :
    (String.utf8EncodeChar (toQChar k b)).map (fun u => u.val) = [b] := by
  rw [toQChar_of_plain k b (Or.inl h)]
  have hv := char_ofNat_val b.val h
  have hle : (Char.ofNat b.val).val ≤ 0x7f := by
    show (Char.ofNat b.val).val.toNat ≤ 127
    omega
  unfold String.utf8EncodeChar
  simp only [hle, if_true, List.map_cons, List.map_nil]
  congr 1
  apply Fin.ext
  show (Char.ofNat b.val).val.toUInt8.toNat = b.val
  simp only [UInt32.toUInt8, Nat.toUInt8, UInt8.ofNat, UInt8.toNat, Fin.ofNat]
  show (Char.ofNat b.val).val.toNat % 256 = b.val
  omega

theorem toUtf8_of_ascii (k : Env) (bytes : QByteArray) (h : ∀ b ∈ bytes, b.val < 128) :
    QCCTV_RemoteCamera.toUtf8 (String.mk (bytes.map (toQChar k))) = bytes := by
  show ((bytes.map (toQChar k)).flatMap String.utf8EncodeChar).map (fun b => b.val) = bytes
  induction bytes with
  | nil => rfl
  | cons b bs ih =>
    have hb := utf8_ascii_byte k b (h b (List.mem_cons_self _ _))
    have hbs := ih (fun x hx => h x (List.mem_cons_of_mem _ hx))
    simp only [List.map_cons, List.flatMap_cons, List.map_append, hb, hbs]
    rfl

theorem setName_name (s : QCCTV_RemoteCamera) (name : QString) (h : name ≠ "") :
    (s.setName name).1.m_name = name := by
  have he : ¬ name.isEmpty = true := fun e => h ((String.isEmpty_iff name).mp e)
  by_cases hs : s.m_name ≠ name
  · simp only [QCCTV_RemoteCamera.setName, if_pos hs, if_neg he]
  · simp only [QCCTV_RemoteCamera.setName, if_neg hs]
    exact not_not.mp hs

theorem setGroup_group (s : QCCTV_RemoteCamera) (group : QString) (h : group ≠ "") :
    (s.setGroup group).1.m_group = group := by
  have he : ¬ group.isEmpty = true := fun e => h ((String.isEmpty_iff group).mp e)
  by_cases hs : s.m_group ≠ group
  · simp only [QCCTV_RemoteCamera.setGroup, if_pos hs, if_neg he]
  · simp only [QCCTV_RemoteCamera.setGroup, if_neg hs]
    exact not_not.mp hs

theorem setGroup_name (s : QCCTV_RemoteCamera) (g : QString) :
    (s.setGroup g).1.m_name = s.m_name := by
  unfold QCCTV_RemoteCamera.setGroup
  split <;> rfl

theorem setLightStatus_name (s : QCCTV_RemoteCamera) (l : Int) :
    (s.setLightStatus l).1.m_name = s.m_name := by
  unfold QCCTV_RemoteCamera.setLightStatus
  split <;> rfl

theorem setCameraStatus_name (k : Env) (s : QCCTV_RemoteCamera) (c : Int) :
    (s.setCameraStatus k c).1.m_name = s.m_name := by
  unfold QCCTV_RemoteCamera.setCameraStatus
  split <;> rfl

theorem setLightStatus_group (s : QCCTV_RemoteCamera) (l : Int) :
    (s.setLightStatus l).1.m_group = s.m_group := by
  unfold QCCTV_RemoteCamera.setLightStatus
  split <;> rfl

theorem setCameraStatus_group (k : Env) (s : QCCTV_RemoteCamera) (c : Int) :
    (s.setCameraStatus k c).1.m_group = s.m_group := by
  unfold QCCTV_RemoteCamera.setCameraStatus
  split <;> rfl

theorem updateValues_name (k : Env) (s : QCCTV_RemoteCamera) (p : QCCTV_RemoteCamera.Fields)
    (h : p.name ≠ "") : (QCCTV_RemoteCamera.updateValues k s p).1.m_name = p.name := by
  simp only [QCCTV_RemoteCamera.updateValues, setCameraStatus_name, setLightStatus_name,
    setGroup_name]
  exact setName_name _ p.name h

theorem updateValues_group (k : Env) (s : QCCTV_RemoteCamera) (p : QCCTV_RemoteCamera.Fields)
    (h : p.group ≠ "") : (QCCTV_RemoteCamera.updateValues k s p).1.m_group = p.group := by
  simp only [QCCTV_RemoteCamera.updateValues, setCameraStatus_group, setLightStatus_group]
  exact setGroup_group _ p.group h

/-! ## C11: the name and the group of a stream datagram -/

set_option maxRecDepth 8192

/-- C11, as stated, fails: for the name bytes C3 A9, the UTF-8 encoding of the
one-character string U+00E9, `readData()` calls `setName` with a string of two
characters, one per byte: U+00C3 U+00A9 where plain `char` is unsigned and
U+FFC3 U+FFA9 where it is signed. Neither is U+00E9 and neither has the UTF-8
encoding C3 A9. Where plain `char` is signed, a name of 128 bytes makes
`readData()` read index -127 instead of the name. -/
theorem C11_name_bytes_not_utf8_decoded :
    QCCTV_RemoteCamera.toUtf8 (String.mk [Char.ofNat 0xE9]) = [0xC3, 0xA9]
      ∧ QCCTV_RemoteCamera.readFields { sampleEnv with charSigned := false }
          (documentedPacket [0xC3, 0xA9] [100, 101, 102, 97, 117, 108, 116] 24 0 0 [0xFF, 0xD8]) =
          .ok { name := String.mk [Char.ofNat 0xC3, Char.ofNat 0xA9], group := "default",
                fps := 0, light := 0, status := 255, imageData := [0xD8] }
      ∧ QCCTV_RemoteCamera.readFields sampleEnv
          (documentedPacket [0xC3, 0xA9] [100, 101, 102, 97, 117, 108, 116] 24 0 0 [0xFF, 0xD8]) =
          .ok { name := String.mk [Char.ofNat 0xFFC3, Char.ofNat 0xFFA9], group := "default",
                fps := 0, light := 0, status := -1, imageData := [0xD8] }
      ∧ (QCCTV_RemoteCamera.readData sampleEnv
          [documentedPacket [0xC3, 0xA9] [100, 101, 102, 97, 117, 108, 116] 24 0 0 [0xFF, 0xD8]]
          sampleConnected).map (fun r => r.1.cameraName) =
          .ok (String.mk [Char.ofNat 0xFFC3, Char.ofNat 0xFFA9])
      ∧ String.mk [Char.ofNat 0xC3, Char.ofNat 0xA9] ≠ String.mk [Char.ofNat 0xE9]
      ∧ String.mk [Char.ofNat 0xFFC3, Char.ofNat 0xFFA9] ≠ String.mk [Char.ofNat 0xE9]
      ∧ QCCTV_RemoteCamera.toUtf8 (String.mk [Char.ofNat 0xC3, Char.ofNat 0xA9]) ≠ [0xC3, 0xA9]
      ∧ QCCTV_RemoteCamera.toUtf8 (String.mk [Char.ofNat 0xFFC3, Char.ofNat 0xFFA9])
          ≠ [0xC3, 0xA9]
      ∧ QCCTV_RemoteCamera.readFields sampleEnv
          (documentedPacket (List.replicate 128 65) [] 24 0 0 [0xFF, 0xD8]) =
          .error (Fault.outOfRange (-127) 135) := by
  refine ⟨by decide, by rfl, by rfl, by rfl, by decide, by decide, by decide, by decide, by rfl⟩

/-- C11, amended: for every name and every group of 0 to 127 bytes each (0 to
255 where plain `char` is unsigned), `readData()` applied to a stream datagram
that carries them as length-prefixed fields, followed by the three status
bytes and at least one image byte, calls `setName` with a string that has one
character per name byte and `setGroup` with one that has one character per
group byte, the characters being those `QChar (int)` makes of the bytes: for a
byte below 0x80, and for every byte where plain `char` is unsigned, the
character whose code point is the byte. When all these bytes are ASCII (below
0x80) the string is the UTF-8 decoding of exactly those bytes. A non-empty name
or group passed this way is what `cameraName()` or `group()` returns
afterwards. -/
theorem C11_name_and_group_read_byte_by_byte (k : Env) (s : QCCTV_RemoteCamera)
    (name group : QByteArray) (fps light status c : Byte) (image : QByteArray)
    (hn : fitsLength k name.length) (hg : fitsLength k group.length) :
    ∃ p, QCCTV_RemoteCamera.readFields k
          (documentedPacket name group fps light status (c :: image)) = .ok p
      ∧ QCCTV_RemoteCamera.readData k
          [documentedPacket name group fps light status (c :: image)] s =
          .ok (QCCTV_RemoteCamera.updateValues k s p)
      ∧ p.name = String.mk (name.map (toQChar k))
      ∧ p.group = String.mk (group.map (toQChar k))
      ∧ p.name.data.length = name.length
      ∧ p.group.data.length = group.length
      ∧ (∀ b : Byte, (b.val < 128 ∨ k.charSigned = false) → toQChar k b = Char.ofNat b.val)
      ∧ ((∀ b ∈ name, b.val < 128) → QCCTV_RemoteCamera.toUtf8 p.name = name)
      ∧ ((∀ b ∈ group, b.val < 128) → QCCTV_RemoteCamera.toUtf8 p.group = group)
      ∧ (p.name ≠ "" → (QCCTV_RemoteCamera.updateValues k s p).1.cameraName = p.name)
      ∧ (p.group ≠ "" → (QCCTV_RemoteCamera.updateValues k s p).1.group = p.group) := by
  have h := documentedPacket_readFields_of_lengths k name group fps light status c image
    (charToInt_toChar_fits k name.length hn) (charToInt_toChar_fits k group.length hg)
  exact ⟨_, h, readData_single k s _ _ h, rfl, rfl, List.length_map _ _, List.length_map _ _,
    toQChar_of_plain k, toUtf8_of_ascii k name, toUtf8_of_ascii k group,
    updateValues_name k s _, updateValues_group k s _⟩

/-- C11 amended, at a concrete datagram: name "cam2" and group "lab", both
ASCII, sent to the connected sample session. -/
theorem C11_name_and_group_read_byte_by_byte_witness :
    ∃ p, QCCTV_RemoteCamera.readFields sampleEnv
          (documentedPacket [99, 97, 109, 50] [108, 97, 98] 24 0 0 (0xFF :: [0xD8])) = .ok p
      ∧ QCCTV_RemoteCamera.readData sampleEnv
          [documentedPacket [99, 97, 109, 50] [108, 97, 98] 24 0 0 (0xFF :: [0xD8])]
          sampleConnected =
          .ok (QCCTV_RemoteCamera.updateValues sampleEnv sampleConnected p)
      ∧ p.name = String.mk (([99, 97, 109, 50] : QByteArray).map (toQChar sampleEnv))
      ∧ p.group = String.mk (([108, 97, 98] : QByteArray).map (toQChar sampleEnv))
      ∧ p.name.data.length = ([99, 97, 109, 50] : QByteArray).length
      ∧ p.group.data.length = ([108, 97, 98] : QByteArray).length
      ∧ (∀ b : Byte, (b.val < 128 ∨ sampleEnv.charSigned = false) →
          toQChar sampleEnv b = Char.ofNat b.val)
      ∧ ((∀ b ∈ ([99, 97, 109, 50] : QByteArray), b.val < 128) →
          QCCTV_RemoteCamera.toUtf8 p.name = [99, 97, 109, 50])
      ∧ ((∀ b ∈ ([108, 97, 98] : QByteArray), b.val < 128) →
          QCCTV_RemoteCamera.toUtf8 p.group = [108, 97, 98])
      ∧ (p.name ≠ "" →
          (QCCTV_RemoteCamera.updateValues sampleEnv sampleConnected p).1.cameraName = p.name)
      ∧ (p.group ≠ "" →
          (QCCTV_RemoteCamera.updateValues sampleEnv sampleConnected p).1.group = p.group) :=
  C11_name_and_group_read_byte_by_byte sampleEnv sampleConnected [99, 97, 109, 50]
    [108, 97, 98] 24 0 0 0xFF [0xD8] (Or.inl (by decide)) (Or.inl (by decide))

/-! ## C12: the connection requests -/

/-- C12: after `attemptConnection (address)`, n `sendRequest()` ticks in a row
write min(n, 10) request datagrams, each exactly the UTF-8 bytes of `group()`,
addressed to `address` on the request port: the tick after n earlier ones
writes one datagram when n is below 10 and none from then on. The counter of
pending requests is 10 - min(n, 10) after n ticks, and it is not negative in
any state that the constructor followed by any sequence of calls produces. -/
theorem C12_ten_requests_after_attemptConnection (k : Env) (s : QCCTV_RemoteCamera)
    (address : QHostAddress) (n : Nat) :
    writes (QCCTV_RemoteCamera.sendRequestTicks k n (s.attemptConnection k address).1).2 =
        List.replicate (min n 10)
          (QCCTV_RemoteCamera.toUtf8 s.group, address, k.QCCTV_REQUEST_PORT)
      ∧ writes (QCCTV_RemoteCamera.sendRequest k
          (QCCTV_RemoteCamera.sendRequestTicks k n (s.attemptConnection k address).1).1).2 =
          (if n < 10 then
            [(QCCTV_RemoteCamera.toUtf8 s.group, address, k.QCCTV_REQUEST_PORT)]
           else [])
      ∧ (QCCTV_RemoteCamera.sendRequestTicks k n (s.attemptConnection k address).1).1.group
          = s.group
      ∧ (QCCTV_RemoteCamera.sendRequestTicks k n
          (s.attemptConnection k address).1).1.m_requestPackets = ((10 - min n 10 : Nat) : Int)
      ∧ (∀ (cs : List Call) (r : QCCTV_RemoteCamera × List Event),
          QCCTV_RemoteCamera.calls k cs (QCCTV_RemoteCamera.QCCTV_RemoteCamera k).1 = .ok r →
            0 ≤ r.1.m_requestPackets) := by
  have hspec := sendRequestTicks_spec k n (s.attemptConnection k address).1 10 rfl
  refine ⟨hspec.2, ?_, ?_, ?_, ?_⟩
  · rw [hspec.1]
    by_cases hn : n < 10
    · have hpos : 0 < ({ (s.attemptConnection k address).1 with
          m_requestPackets := ((10 - min n 10 : Nat) : Int) } :
          QCCTV_RemoteCamera).m_requestPackets := by
        show (0 : Int) < ((10 - min n 10 : Nat) : Int)
        omega
      rw [sendRequest_pending k _ hpos, if_pos hn]
      rfl
    · have hidle : ¬ 0 < ({ (s.attemptConnection k address).1 with
          m_requestPackets := ((10 - min n 10 : Nat) : Int) } :
          QCCTV_RemoteCamera).m_requestPackets := by
        show ¬ (0 : Int) < ((10 - min n 10 : Nat) : Int)
        omega
      rw [sendRequest_idle k _ hidle, if_neg hn]
      rfl
  · rw [hspec.1]
    rfl
  · rw [hspec.1]
  · intro cs r hr
    exact (wellFormed_calls k cs _ r (wellFormed_constructor k) hr).1

/-! ## C13: the name and the group are never empty -/

/-- C13: in every state that the constructor followed by any sequence of calls
(among them `setName`, `setGroup` and `readData`) produces, `cameraName()` and
`group()` are non-empty strings; setting an empty name there stores "Unknown
Camera" and setting an empty group stores "default". -/
theorem C13_name_and_group_never_empty (k : Env) (cs : List Call)
    (r : QCCTV_RemoteCamera × List Event)
    (h : QCCTV_RemoteCamera.calls k cs (QCCTV_RemoteCamera.QCCTV_RemoteCamera k).1 = .ok r) :
    r.1.cameraName ≠ "" ∧ r.1.group ≠ ""
      ∧ (r.1.setName "").1.cameraName = "Unknown Camera"
      ∧ (r.1.setGroup "").1.group = "default" := by
  have hw := wellFormed_calls k cs _ r (wellFormed_constructor k) h
  refine ⟨hw.2.1, hw.2.2, ?_, ?_⟩
  · have hne : r.1.m_name ≠ "" := hw.2.1
    simp only [QCCTV_RemoteCamera.setName, if_pos hne]
    rfl
  · have hne : r.1.m_group ≠ "" := hw.2.2
    simp only [QCCTV_RemoteCamera.setGroup, if_pos hne]
    rfl

/-- C13 at a concrete run: the constructor, `setName ("")`, a datagram with an
empty name and an empty group, then `setGroup ("")`. -/
theorem C13_name_and_group_never_empty_witness :
    (sampleAfterEmptyNames.1.cameraName ≠ "" ∧ sampleAfterEmptyNames.1.group ≠ ""
      ∧ (sampleAfterEmptyNames.1.setName "").1.cameraName = "Unknown Camera"
      ∧ (sampleAfterEmptyNames.1.setGroup "").1.group = "default")
      ∧ sampleAfterEmptyNames.1.cameraName = "Unknown Camera"
      ∧ sampleAfterEmptyNames.1.group = "default" :=
  ⟨C13_name_and_group_never_empty sampleEnv
      [Call.setName "", Call.readData [[0, 0, 0, 24, 0, 0, 1, 2]], Call.setGroup ""]
      sampleAfterEmptyNames (by rfl),
    by rfl, by rfl⟩


/-! ## Lemmas for the event loop -/

theorem nextTimer_mem (ts : List Timer) :
    ∀ t, nextTimer ts = some t → t ∈ ts := by
  induction ts with
  | nil => intro t h; cases h
  | cons a rest ih =>
    intro t h
    unfold nextTimer at h
    split at h
    · cases h
      exact List.mem_cons_self _ _
    · rename_i u hu
      split at h
      · rw [← Option.some.inj h]
        exact List.mem_cons_of_mem _ (ih u hu)
      · rw [← Option.some.inj h]
        exact List.mem_cons_self _ _

theorem nextTimer_min (ts : List Timer) :
    ∀ t, nextTimer ts = some t → ∀ u ∈ ts, ¬ u.before t := by
  induction ts with
  | nil => intro t h; cases h
  | cons a rest ih =>
    intro t h u hu
    unfold nextTimer at h
    split at h
    · rename_i hn
      cases h
      rcases List.mem_cons.mp hu with e | e
      · rw [e]
        unfold Timer.before
        omega
      · cases rest with
        | nil => cases e
        | cons b bs =>
          exfalso
          unfold nextTimer at hn
          split at hn
          · cases hn
          · split at hn <;> cases hn
    · rename_i w hw
      have hmin := ih w hw
      split at h
      · rename_i hb
        cases h
        rcases List.mem_cons.mp hu with e | e
        · rw [e]
          unfold Timer.before at hb ⊢
          omega
        · exact hmin u e
      · rename_i hb
        cases h
        rcases List.mem_cons.mp hu with e | e
        · rw [e]
          unfold Timer.before
          omega
        · have h1 := hmin u e
          unfold Timer.before at hb h1 ⊢
          omega

theorem nextTimer_none (ts : List Timer) (h : nextTimer ts = none) : ts = [] := by
  cases ts with
  | nil => rfl
  | cons b bs =>
    exfalso
    unfold nextTimer at h
    split at h
    · cases h
    · split at h <;> cases h

theorem shots_append (xs ys : List Event) : shots (xs ++ ys) = shots xs ++ shots ys := by
  induction xs with
  | nil => rfl
  | cons e es ih => cases e <;> simp [shots, ih]

theorem commandDatagrams_append (xs ys : List Entry) :
    commandDatagrams (xs ++ ys) = commandDatagrams xs ++ commandDatagrams ys := by
  induction xs with
  | nil => rfl
  | cons e es ih =>
    show commandDatagrams (e :: (es ++ ys)) = _
    by_cases h : e.fired = some Slot.sendData
    · simp only [commandDatagrams, if_pos h, ih, List.append_assoc]
    · simp only [commandDatagrams, if_neg h, ih]

theorem run_cons_ok (k : Env) (s : Step) (rest : List Step) (L : EventLoop)
    (out : EventLoop × List Entry) (h : EventLoop.run k (s :: rest) L = .ok out) :
    ∃ r r2, L.step k s = .ok r ∧ EventLoop.run k rest r.1 = .ok r2
      ∧ out = (r2.1, r.2 ++ r2.2) := by
  unfold EventLoop.run at h
  cases hs : EventLoop.step k L s with
  | error f =>
    rw [hs] at h
    cases h
  | ok r =>
    rw [hs] at h
    simp only [] at h
    cases hr : EventLoop.run k rest r.1 with
    | error f =>
      rw [hr] at h
      cases h
    | ok r2 =>
      rw [hr] at h
      simp only [Except.ok.injEq] at h
      exact ⟨r, r2, rfl, hr, h.symm⟩

theorem shots_setName (s : QCCTV_RemoteCamera) (n : QString) : shots (s.setName n).2 = [] := by
  rw [setName_snd]
  split <;> rfl

theorem shots_setGroup (s : QCCTV_RemoteCamera) (g : QString) : shots (s.setGroup g).2 = [] := by
  rw [setGroup_snd]
  split <;> rfl

theorem shots_setLightStatus (s : QCCTV_RemoteCamera) (l : Int) :
    shots (s.setLightStatus l).2 = [] := by
  rw [setLightStatus_snd]
  split <;> rfl

theorem shots_setCameraStatus (k : Env) (s : QCCTV_RemoteCamera) (c : Int) :
    shots (s.setCameraStatus k c).2 = [] := by
  unfold QCCTV_RemoteCamera.setCameraStatus
  split
  · split <;> split <;> rfl
  · rfl

theorem setName_focus (s : QCCTV_RemoteCamera) (n : QString) :
    (s.setName n).1.m_focus = s.m_focus := by
  unfold QCCTV_RemoteCamera.setName
  split <;> rfl

theorem setGroup_focus (s : QCCTV_RemoteCamera) (g : QString) :
    (s.setGroup g).1.m_focus = s.m_focus := by
  unfold QCCTV_RemoteCamera.setGroup
  split <;> rfl

theorem setLightStatus_focus (s : QCCTV_RemoteCamera) (l : Int) :
    (s.setLightStatus l).1.m_focus = s.m_focus := by
  unfold QCCTV_RemoteCamera.setLightStatus
  split <;> rfl

theorem setCameraStatus_focus (k : Env) (s : QCCTV_RemoteCamera) (c : Int) :
    (s.setCameraStatus k c).1.m_focus = s.m_focus := by
  unfold QCCTV_RemoteCamera.setCameraStatus
  split <;> rfl

theorem sendRequest_focus (k : Env) (s : QCCTV_RemoteCamera) :
    (s.sendRequest k).1.m_focus = s.m_focus := by
  unfold QCCTV_RemoteCamera.sendRequest
  split <;> rfl

theorem shots_sendRequest (k : Env) (s : QCCTV_RemoteCamera) :
    shots (s.sendRequest k).2 = [(500, Slot.sendRequest)] := by
  unfold QCCTV_RemoteCamera.sendRequest
  split <;> rfl

theorem shots_sendData (k : Env) (s : QCCTV_RemoteCamera) :
    shots (s.sendData k).2 = [(500, Slot.sendData)] := by
  unfold QCCTV_RemoteCamera.sendData
  rw [shots_append]
  split <;> rfl

theorem updateValues_focus (k : Env) (s : QCCTV_RemoteCamera)
    (p : QCCTV_RemoteCamera.Fields) :
    (QCCTV_RemoteCamera.updateValues k s p).1.m_focus = s.m_focus := by
  simp only [QCCTV_RemoteCamera.updateValues, setCameraStatus_focus, setLightStatus_focus,
    setGroup_focus, setName_focus]
  rfl

theorem shots_updateValues (k : Env) (s : QCCTV_RemoteCamera)
    (p : QCCTV_RemoteCamera.Fields) :
    shots (QCCTV_RemoteCamera.updateValues k s p).2 = [] := by
  simp only [QCCTV_RemoteCamera.updateValues, shots_append, shots_setName, shots_setGroup,
    shots_setLightStatus, shots_setCameraStatus]
  rfl

theorem readData_quiet (k : Env) (pending : List QByteArray) :
    ∀ (s : QCCTV_RemoteCamera) (r : QCCTV_RemoteCamera × List Event),
      QCCTV_RemoteCamera.readData k pending s = .ok r →
        r.1.m_focus = s.m_focus ∧ shots r.2 = [] := by
  induction pending with
  | nil =>
    intro s r hr
    simp only [QCCTV_RemoteCamera.readData, Except.ok.injEq] at hr
    rw [← hr]
    exact ⟨rfl, rfl⟩
  | cons data rest ih =>
    intro s r hr
    unfold QCCTV_RemoteCamera.readData at hr
    split at hr
    · simp only [Except.ok.injEq] at hr
      rw [← hr]
      exact ⟨rfl, rfl⟩
    · split at hr
      · cases hr
      · rename_i p hp
        split at hr
        · cases hr
        · rename_i r2 hr2
          simp only [Except.ok.injEq] at hr
          rw [← hr]
          have h2 := ih _ r2 hr2
          refine ⟨?_, ?_⟩
          · show r2.1.m_focus = s.m_focus
            rw [h2.1, updateValues_focus]
          · show shots ((QCCTV_RemoteCamera.updateValues k s p).2 ++ r2.2) = []
            rw [shots_append, shots_updateValues, h2.2]
            rfl

theorem onCameraTimeout_quiet (k : Env) (s : QCCTV_RemoteCamera) :
    (s.onCameraTimeout k).1.m_focus = s.m_focus ∧ shots (s.onCameraTimeout k).2 = [] := by
  refine ⟨?_, ?_⟩
  · simp only [QCCTV_RemoteCamera.onCameraTimeout, setCameraStatus_focus, setLightStatus_focus]
  · simp only [QCCTV_RemoteCamera.onCameraTimeout, shots_append, shots_setLightStatus,
      shots_setCameraStatus]
    rfl

theorem call_outside (k : Env) (s : QCCTV_RemoteCamera) (late : Nat) (c : Call)
    (r : QCCTV_RemoteCamera × List Event) (ho : (Step.call late c).outside = true)
    (h : QCCTV_RemoteCamera.call k s c = .ok r) :
    (c = Call.requestFocus ∧ r = s.requestFocus)
      ∨ (c ≠ Call.requestFocus ∧ r.1.m_focus = s.m_focus ∧ shots r.2 = []) := by
  cases c with
  | requestFocus =>
    simp only [QCCTV_RemoteCamera.call, Except.ok.injEq] at h
    exact Or.inl ⟨rfl, h.symm⟩
  | sendData => cases ho
  | sendRequest => cases ho
  | resetFocusRequest => cases ho
  | readData pending =>
    exact Or.inr ⟨fun e => Call.noConfusion e, readData_quiet k pending s r h⟩
  | setFPS fps =>
    simp only [QCCTV_RemoteCamera.call, Except.ok.injEq] at h
    rw [← h]
    exact Or.inr ⟨fun e => Call.noConfusion e, rfl, rfl⟩
  | attemptConnection address =>
    simp only [QCCTV_RemoteCamera.call, Except.ok.injEq] at h
    rw [← h]
    exact Or.inr ⟨fun e => Call.noConfusion e, rfl, rfl⟩
  | setLightStatus status =>
    simp only [QCCTV_RemoteCamera.call, Except.ok.injEq] at h
    rw [← h]
    exact Or.inr ⟨fun e => Call.noConfusion e, setLightStatus_focus s status,
      shots_setLightStatus s status⟩
  | setCameraStatus status =>
    simp only [QCCTV_RemoteCamera.call, Except.ok.injEq] at h
    rw [← h]
    exact Or.inr ⟨fun e => Call.noConfusion e, setCameraStatus_focus k s status,
      shots_setCameraStatus k s status⟩
  | onCameraTimeout =>
    simp only [QCCTV_RemoteCamera.call, Except.ok.injEq] at h
    rw [← h]
    exact Or.inr ⟨fun e => Call.noConfusion e, onCameraTimeout_quiet k s⟩
  | setName name =>
    simp only [QCCTV_RemoteCamera.call, Except.ok.injEq] at h
    rw [← h]
    exact Or.inr ⟨fun e => Call.noConfusion e, setName_focus s name, shots_setName s name⟩
  | setGroup group =>
    simp only [QCCTV_RemoteCamera.call, Except.ok.injEq] at h
    rw [← h]
    exact Or.inr ⟨fun e => Call.noConfusion e, setGroup_focus s group, shots_setGroup s group⟩

theorem step_fire_sendData (k : Env) (L : EventLoop) (late : Nat) (t : Timer)
    (hnt : nextTimer L.timers = some t) (hslot : t.slot = Slot.sendData) :
    L.step k (Step.timer late) =
      .ok ({ now := max L.now t.due + late, nextSeq := L.nextSeq + 1,
             timers := L.timers.filter (fun u => decide (u ≠ t))
               ++ [{ due := max L.now t.due + late + 500, seq := L.nextSeq,
                     slot := Slot.sendData }],
             camera := L.camera },
           [{ time := max L.now t.due + late, fired := some Slot.sendData,
              events := (L.camera.sendData k).2 }]) := by
  simp only [EventLoop.step, hnt, hslot, QCCTV_RemoteCamera.fire, shots_sendData, newTimers,
    sendData_fst, List.length_singleton]

theorem step_fire_sendRequest (k : Env) (L : EventLoop) (late : Nat) (t : Timer)
    (hnt : nextTimer L.timers = some t) (hslot : t.slot = Slot.sendRequest) :
    L.step k (Step.timer late) =
      .ok ({ now := max L.now t.due + late, nextSeq := L.nextSeq + 1,
             timers := L.timers.filter (fun u => decide (u ≠ t))
               ++ [{ due := max L.now t.due + late + 500, seq := L.nextSeq,
                     slot := Slot.sendRequest }],
             camera := (L.camera.sendRequest k).1 },
           [{ time := max L.now t.due + late, fired := some Slot.sendRequest,
              events := (L.camera.sendRequest k).2 }]) := by
  simp only [EventLoop.step, hnt, hslot, QCCTV_RemoteCamera.fire, shots_sendRequest, newTimers,
    List.length_singleton]

theorem step_fire_reset (k : Env) (L : EventLoop) (late : Nat) (t : Timer)
    (hnt : nextTimer L.timers = some t) (hslot : t.slot = Slot.resetFocusRequest) :
    L.step k (Step.timer late) =
      .ok ({ now := max L.now t.due + late, nextSeq := L.nextSeq,
             timers := L.timers.filter (fun u => decide (u ≠ t)),
             camera := { L.camera with m_focus := false } },
           [{ time := max L.now t.due + late, fired := some Slot.resetFocusRequest,
              events := [] }]) := by
  simp only [EventLoop.step, hnt, hslot, QCCTV_RemoteCamera.fire,
    QCCTV_RemoteCamera.resetFocusRequest, shots, newTimers, List.length_nil, Nat.add_zero,
    List.append_nil]

theorem step_fire_none (k : Env) (L : EventLoop) (late : Nat)
    (hnt : nextTimer L.timers = none) :
    L.step k (Step.timer late) = .ok ({ L with now := L.now + late }, []) := by
  simp only [EventLoop.step, hnt]

theorem step_call_quiet (k : Env) (L : EventLoop) (late : Nat) (c : Call)
    (out : EventLoop × List Entry) (ho : (Step.call late c).outside = true)
    (hc : c ≠ Call.requestFocus) (hs : L.step k (Step.call late c) = .ok out) :
    out.1.now = L.now + late ∧ out.1.nextSeq = L.nextSeq ∧ out.1.timers = L.timers
      ∧ out.1.camera.m_focus = L.camera.m_focus
      ∧ ∃ evs, out.2 = [{ time := L.now + late, fired := none, events := evs }] := by
  simp only [EventLoop.step] at hs
  cases hcall : QCCTV_RemoteCamera.call k L.camera c with
  | error f =>
    rw [hcall] at hs
    cases hs
  | ok r =>
    rw [hcall] at hs
    simp only [Except.ok.injEq] at hs
    rcases call_outside k L.camera late c r ho hcall with h | h
    · exact absurd h.1 hc
    · rw [← hs]
      refine ⟨rfl, ?_, ?_, h.2.1, r.2, rfl⟩
      · show L.nextSeq + (shots r.2).length = L.nextSeq
        rw [h.2.2]
        rfl
      · show L.timers ++ newTimers (L.now + late) L.nextSeq (shots r.2) = L.timers
        rw [h.2.2]
        exact List.append_nil _

theorem commandData_focus (k : Env) (s : QCCTV_RemoteCamera) :
    (QCCTV_RemoteCamera.commandData k s).get? 2 =
      some (toChar (if s.m_focus = true then k.QCCTV_FORCE_FOCUS else 0)) := rfl

theorem sendData_entry_focus (k : Env) (s : QCCTV_RemoteCamera) (time : Nat) :
    (∀ d ∈ commandDatagrams
        [{ time := time, fired := some Slot.sendData, events := (s.sendData k).2 }],
      d.get? 2 = some (toChar (if s.m_focus = true then k.QCCTV_FORCE_FOCUS else 0)))
      ∧ (commandDatagrams
        [{ time := time, fired := some Slot.sendData, events := (s.sendData k).2 }]).length
          ≤ 1 := by
  have e : commandDatagrams
      [{ time := time, fired := some Slot.sendData, events := (s.sendData k).2 }]
      = datagrams (s.sendData k).2 := by
    simp only [commandDatagrams, if_true, List.append_nil]
  rw [e, datagrams_sendData]
  split
  · refine ⟨?_, Nat.le_refl 1⟩
    intro d hd
    rw [List.mem_singleton.mp hd]
    exact commandData_focus k s
  · exact ⟨fun d hd => (by cases hd), Nat.zero_le 1⟩

theorem slot_cases (sl : Slot) :
    sl = Slot.sendData ∨ sl = Slot.sendRequest ∨ sl = Slot.resetFocusRequest := by
  cases sl
  · exact Or.inl rfl
  · exact Or.inr (Or.inl rfl)
  · exact Or.inr (Or.inr rfl)

theorem step_cleared (k : Env) (L : EventLoop) (s : Step) (out : EventLoop × List Entry)
    (ho : s.outside = true) (hnf : s.noFocusRequest = true)
    (hf : L.camera.m_focus = false) (hs : L.step k s = .ok out) :
    out.1.camera.m_focus = false
      ∧ ∀ d ∈ commandDatagrams out.2, d.get? 2 = some 0 := by
  cases s with
  | timer late =>
    cases hnt : nextTimer L.timers with
    | none =>
      rw [step_fire_none k L late hnt, Except.ok.injEq] at hs
      rw [← hs]
      exact ⟨hf, fun d hd => (by cases hd)⟩
    | some t =>
      rcases slot_cases t.slot with hslot | hslot | hslot
      · rw [step_fire_sendData k L late t hnt hslot, Except.ok.injEq] at hs
        rw [← hs]
        refine ⟨hf, ?_⟩
        intro d hd
        have h := (sendData_entry_focus k L.camera (max L.now t.due + late)).1 d hd
        rw [h, hf]
        rfl
      · rw [step_fire_sendRequest k L late t hnt hslot, Except.ok.injEq] at hs
        rw [← hs]
        refine ⟨?_, fun d hd => (by cases hd)⟩
        show (L.camera.sendRequest k).1.m_focus = false
        rw [sendRequest_focus, hf]
      · rw [step_fire_reset k L late t hnt hslot, Except.ok.injEq] at hs
        rw [← hs]
        exact ⟨rfl, fun d hd => (by cases hd)⟩
  | call late c =>
    have hc : c ≠ Call.requestFocus := by
      intro e
      rw [e] at hnf
      cases hnf
    obtain ⟨_, _, _, h4, evs, h5⟩ := step_call_quiet k L late c out ho hc hs
    refine ⟨by rw [h4, hf], ?_⟩
    rw [h5]
    intro d hd
    cases hd

theorem cleared_phase (k : Env) (post : List Step) :
    ∀ (L : EventLoop) (out : EventLoop × List Entry),
      (∀ s ∈ post, s.outside = true ∧ s.noFocusRequest = true) →
      L.camera.m_focus = false →
      EventLoop.run k post L = .ok out →
      ∀ d ∈ commandDatagrams out.2, d.get? 2 = some 0 := by
  induction post with
  | nil =>
    intro L out _ _ hrun
    simp only [EventLoop.run, Except.ok.injEq] at hrun
    rw [← hrun]
    intro d hd
    cases hd
  | cons s rest ih =>
    intro L out hall hf hrun
    obtain ⟨r, r2, hstep, hrest, hout⟩ := run_cons_ok k s rest L out hrun
    have hs := hall s (List.mem_cons_self _ _)
    have h1 := step_cleared k L s r hs.1 hs.2 hf hstep
    have h2 := ih r.1 r2 (fun x hx => hall x (List.mem_cons_of_mem _ hx)) h1.1 hrest
    rw [hout]
    intro d hd
    rw [commandDatagrams_append] at hd
    rcases List.mem_append.mp hd with h | h
    · exact h1.2 d h
    · exact h2 d h

theorem step_while_focus (k : Env) (t0 r n : Nat) (L : EventLoop) (s : Step)
    (out : EventLoop × List Entry)
    (ho : s.outside = true) (hnf : s.noFocusRequest = true)
    (hp : focusPending t0 r n L) (hs : L.step k s = .ok out) :
    ((∃ e, out.2 = [e] ∧ e.fired = some Slot.resetFocusRequest)
        ∧ out.1.camera.m_focus = false)
      ∨ ((∀ e ∈ out.2, e.fired ≠ some Slot.resetFocusRequest)
        ∧ (∀ d ∈ commandDatagrams out.2, d.get? 2 = some (toChar k.QCCTV_FORCE_FOCUS))
        ∧ ∃ n', (commandDatagrams out.2).length + n ≤ n' ∧ focusPending t0 r n' out.1) := by
  obtain ⟨hf, ht, hr, hn, ⟨rt, hrt, hrslot, hrdue, hrseq⟩, ⟨sd, hsd⟩⟩ := hp
  cases s with
  | timer late =>
    cases hnt : nextTimer L.timers with
    | none =>
      rw [nextTimer_none L.timers hnt] at hrt
      cases hrt
    | some t =>
      have hmem := nextTimer_mem L.timers t hnt
      have hmin := nextTimer_min L.timers t hnt
      rcases slot_cases t.slot with hslot | hslot | hslot
      · -- a sendData() activation
        rw [step_fire_sendData k L late t hnt hslot, Except.ok.injEq] at hs
        have hts := hsd t hmem hslot
        have hn4 : n < 4 := by
          by_contra hc
          have h4 : 1 ≤ n := by omega
          have hb := hts.2 h4
          apply hmin rt hrt
          unfold Timer.before
          omega
        have hrne : rt ≠ t := by
          intro e
          rw [e, hslot] at hrslot
          cases hrslot
        have hfoc := sendData_entry_focus k L.camera (max L.now t.due + late)
        rw [← hs]
        refine Or.inr ⟨?_, ?_, n + 1, ?_, ?_⟩
        · intro e he
          rw [List.mem_singleton.mp he]
          exact fun h => Option.noConfusion h (fun h2 => Slot.noConfusion h2)
        · intro d hd
          have h := hfoc.1 d hd
          rw [h, hf]
          rfl
        · have h := hfoc.2
          show (commandDatagrams
            [{ time := max L.now t.due + late, fired := some Slot.sendData,
               events := (L.camera.sendData k).2 }]).length + n ≤ n + 1
          omega
        · refine ⟨hf, ?_, ?_, ?_, ⟨rt, ?_, hrslot, hrdue, hrseq⟩, ?_⟩
          · show t0 ≤ max L.now t.due + late
            omega
          · show r < L.nextSeq + 1
            omega
          · omega
          · exact List.mem_append_left _
              (List.mem_filter.mpr ⟨hrt, decide_eq_true hrne⟩)
          · refine ⟨{ due := max L.now t.due + late + 500, seq := L.nextSeq,
                      slot := Slot.sendData }, ?_⟩
            intro a ha hslota
            rcases List.mem_append.mp ha with h | h
            · exfalso
              have h1 := List.mem_filter.mp h
              have h2 : a ≠ t := of_decide_eq_true h1.2
              exact h2 ((hsd a h1.1 hslota).1.trans hts.1.symm)
            · have e := List.mem_singleton.mp h
              refine ⟨e, fun _ => ?_⟩
              rw [e]
              show t0 + 500 * (n + 1) ≤ max L.now t.due + late + 500 ∧ r < L.nextSeq
              by_cases h0 : 1 ≤ n
              · have hb := hts.2 h0
                omega
              · omega
      · -- a sendRequest() activation
        rw [step_fire_sendRequest k L late t hnt hslot, Except.ok.injEq] at hs
        have hrne : rt ≠ t := by
          intro e
          rw [e, hslot] at hrslot
          cases hrslot
        rw [← hs]
        refine Or.inr ⟨?_, ?_, n, ?_, ?_⟩
        · intro e he
          rw [List.mem_singleton.mp he]
          exact fun h => Option.noConfusion h (fun h2 => Slot.noConfusion h2)
        · intro d hd
          cases hd
        · show 0 + n ≤ n
          omega
        · refine ⟨?_, ?_, ?_, hn, ⟨rt, ?_, hrslot, hrdue, hrseq⟩, ?_⟩
          · show (L.camera.sendRequest k).1.m_focus = true
            rw [sendRequest_focus, hf]
          · show t0 ≤ max L.now t.due + late
            omega
          · show r < L.nextSeq + 1
            omega
          · exact List.mem_append_left _
              (List.mem_filter.mpr ⟨hrt, decide_eq_true hrne⟩)
          · refine ⟨sd, ?_⟩
            intro a ha hslota
            rcases List.mem_append.mp ha with h | h
            · exact hsd a (List.mem_filter.mp h).1 hslota
            · have e := List.mem_singleton.mp h
              rw [e] at hslota
              cases hslota
      · -- the resetFocusRequest() activation
        rw [step_fire_reset k L late t hnt hslot, Except.ok.injEq] at hs
        rw [← hs]
        exact Or.inl ⟨⟨_, rfl, rfl⟩, rfl⟩
  | call late c =>
    have hc : c ≠ Call.requestFocus := by
      intro e
      rw [e] at hnf
      cases hnf
    obtain ⟨h1, h2, h3, h4, evs, h5⟩ := step_call_quiet k L late c out ho hc hs
    refine Or.inr ⟨?_, ?_, n, ?_, ?_⟩
    · rw [h5]
      intro e he
      rw [List.mem_singleton.mp he]
      exact fun h => Option.noConfusion h
    · rw [h5]
      intro d hd
      cases hd
    · rw [h5]
      show 0 + n ≤ n
      omega
    · refine ⟨by rw [h4, hf], by omega, by omega, hn, ⟨rt, by rw [h3]; exact hrt, hrslot,
        hrdue, hrseq⟩, sd, ?_⟩
      rw [h3]
      exact hsd

theorem beforeReset_append (xs ys : List Entry)
    (h : ∀ e ∈ xs, e.fired ≠ some Slot.resetFocusRequest) :
    beforeReset (xs ++ ys) = xs ++ beforeReset ys := by
  unfold beforeReset
  exact List.takeWhile_append_of_pos (fun e he => decide_eq_true (h e he))

theorem afterReset_append (xs ys : List Entry)
    (h : ∀ e ∈ xs, e.fired ≠ some Slot.resetFocusRequest) :
    afterReset (xs ++ ys) = afterReset ys := by
  unfold afterReset
  exact List.dropWhile_append_of_pos (fun e he => decide_eq_true (h e he))

theorem beforeReset_reset (e : Entry) (ys : List Entry)
    (h : e.fired = some Slot.resetFocusRequest) : beforeReset ([e] ++ ys) = [] := by
  unfold beforeReset
  exact List.takeWhile_cons_of_neg (by simp [h])

theorem afterReset_reset (e : Entry) (ys : List Entry)
    (h : e.fired = some Slot.resetFocusRequest) : afterReset ([e] ++ ys) = e :: ys := by
  unfold afterReset
  exact List.dropWhile_cons_of_neg (by simp [h])

theorem focus_phase (k : Env) (t0 r : Nat) (post : List Step) :
    ∀ (n : Nat) (L : EventLoop) (out : EventLoop × List Entry),
      (∀ s ∈ post, s.outside = true ∧ s.noFocusRequest = true) →
      focusPending t0 r n L →
      EventLoop.run k post L = .ok out →
      (∀ d ∈ commandDatagrams (beforeReset out.2),
          d.get? 2 = some (toChar k.QCCTV_FORCE_FOCUS))
        ∧ (commandDatagrams (beforeReset out.2)).length + n ≤ 4
        ∧ (∀ d ∈ commandDatagrams (afterReset out.2), d.get? 2 = some 0) := by
  induction post with
  | nil =>
    intro n L out _ hp hrun
    simp only [EventLoop.run, Except.ok.injEq] at hrun
    rw [← hrun]
    refine ⟨fun d hd => (by cases hd), ?_, fun d hd => (by cases hd)⟩
    show 0 + n ≤ 4
    have := hp.2.2.2.1
    omega
  | cons s rest ih =>
    intro n L out hall hp hrun
    obtain ⟨r1, r2, hstep, hrest, hout⟩ := run_cons_ok k s rest L out hrun
    have hs := hall s (List.mem_cons_self _ _)
    have hall' : ∀ x ∈ rest, x.outside = true ∧ x.noFocusRequest = true :=
      fun x hx => hall x (List.mem_cons_of_mem _ hx)
    rw [hout]
    rcases step_while_focus k t0 r n L s r1 hs.1 hs.2 hp hstep with h | h
    · obtain ⟨⟨e, he, hfired⟩, hfalse⟩ := h
      have hclr := cleared_phase k rest r1.1 r2 hall' hfalse hrest
      show (∀ d ∈ commandDatagrams (beforeReset (r1.2 ++ r2.2)), _)
        ∧ (commandDatagrams (beforeReset (r1.2 ++ r2.2))).length + n ≤ 4
        ∧ (∀ d ∈ commandDatagrams (afterReset (r1.2 ++ r2.2)), _)
      rw [he, beforeReset_reset e r2.2 hfired, afterReset_reset e r2.2 hfired]
      refine ⟨fun d hd => (by cases hd), ?_, ?_⟩
      · show 0 + n ≤ 4
        have := hp.2.2.2.1
        omega
      · intro d hd
        have hne : ¬ e.fired = some Slot.sendData := by
          rw [hfired]
          exact fun h => Option.noConfusion h (fun h2 => Slot.noConfusion h2)
        simp only [commandDatagrams, if_neg hne] at hd
        exact hclr d hd
    · obtain ⟨hnone, hfoc, n', hlen, hp'⟩ := h
      have h2 := ih n' r1.1 r2 hall' hp' hrest
      show (∀ d ∈ commandDatagrams (beforeReset (r1.2 ++ r2.2)), _)
        ∧ (commandDatagrams (beforeReset (r1.2 ++ r2.2))).length + n ≤ 4
        ∧ (∀ d ∈ commandDatagrams (afterReset (r1.2 ++ r2.2)), _)
      rw [beforeReset_append r1.2 r2.2 hnone, afterReset_append r1.2 r2.2 hnone,
        commandDatagrams_append]
      refine ⟨?_, ?_, h2.2.2⟩
      · intro d hd
        rcases List.mem_append.mp hd with h | h
        · exact hfoc d h
        · exact h2.1 d h
      · rw [List.length_append]
        have := h2.2.1
        omega

theorem step_call_requestFocus (k : Env) (L : EventLoop) (late : Nat) :
    L.step k (Step.call late Call.requestFocus) =
      .ok ({ now := L.now + late, nextSeq := L.nextSeq + 1,
             timers := L.timers ++ [{ due := L.now + late + 2000, seq := L.nextSeq,
                                      slot := Slot.resetFocusRequest }],
             camera := { L.camera with m_focus := true } },
           [{ time := L.now + late, fired := none,
              events := [Event.singleShot 2000 Slot.resetFocusRequest] }]) := rfl

theorem oneSendData_boot (k : Env) : oneSendData (EventLoop.boot k) := by
  refine ⟨{ due := 500, seq := 0, slot := Slot.sendData }, ?_⟩
  intro a ha hslot
  have ht : (EventLoop.boot k).timers =
      [{ due := 500, seq := 0, slot := Slot.sendData },
       { due := 500, seq := 1, slot := Slot.sendRequest }] := rfl
  rw [ht] at ha
  rcases List.mem_cons.mp ha with e | e
  · exact e
  · rw [List.mem_singleton.mp e] at hslot
    cases hslot

theorem oneSendData_step (k : Env) (L : EventLoop) (s : Step) (out : EventLoop × List Entry)
    (ho : s.outside = true) (hp : oneSendData L) (hs : L.step k s = .ok out) :
    oneSendData out.1 := by
  obtain ⟨sd, hsd⟩ := hp
  cases s with
  | timer late =>
    cases hnt : nextTimer L.timers with
    | none =>
      rw [step_fire_none k L late hnt, Except.ok.injEq] at hs
      rw [← hs]
      exact ⟨sd, hsd⟩
    | some t =>
      have hmem := nextTimer_mem L.timers t hnt
      rcases slot_cases t.slot with hslot | hslot | hslot
      · rw [step_fire_sendData k L late t hnt hslot, Except.ok.injEq] at hs
        rw [← hs]
        refine ⟨{ due := max L.now t.due + late + 500, seq := L.nextSeq,
                  slot := Slot.sendData }, ?_⟩
        intro a ha hslota
        rcases List.mem_append.mp ha with h | h
        · exfalso
          have h1 := List.mem_filter.mp h
          have h2 : a ≠ t := of_decide_eq_true h1.2
          exact h2 ((hsd a h1.1 hslota).trans (hsd t hmem hslot).symm)
        · exact List.mem_singleton.mp h
      · rw [step_fire_sendRequest k L late t hnt hslot, Except.ok.injEq] at hs
        rw [← hs]
        refine ⟨sd, ?_⟩
        intro a ha hslota
        rcases List.mem_append.mp ha with h | h
        · exact hsd a (List.mem_filter.mp h).1 hslota
        · rw [List.mem_singleton.mp h] at hslota
          cases hslota
      · rw [step_fire_reset k L late t hnt hslot, Except.ok.injEq] at hs
        rw [← hs]
        exact ⟨sd, fun a ha hslota => hsd a (List.mem_filter.mp ha).1 hslota⟩
  | call late c =>
    by_cases hc : c = Call.requestFocus
    · rw [hc, step_call_requestFocus k L late, Except.ok.injEq] at hs
      rw [← hs]
      refine ⟨sd, ?_⟩
      intro a ha hslota
      rcases List.mem_append.mp ha with h | h
      · exact hsd a h hslota
      · rw [List.mem_singleton.mp h] at hslota
        cases hslota
    · obtain ⟨_, _, h3, _, _⟩ := step_call_quiet k L late c out ho hc hs
      refine ⟨sd, ?_⟩
      rw [h3]
      exact hsd

theorem oneSendData_run (k : Env) (steps : List Step) :
    ∀ (L : EventLoop) (out : EventLoop × List Entry),
      (∀ s ∈ steps, s.outside = true) → oneSendData L →
      EventLoop.run k steps L = .ok out → oneSendData out.1 := by
  induction steps with
  | nil =>
    intro L out _ hp hrun
    simp only [EventLoop.run, Except.ok.injEq] at hrun
    rw [← hrun]
    exact hp
  | cons s rest ih =>
    intro L out hall hp hrun
    obtain ⟨r1, r2, hstep, hrest, hout⟩ := run_cons_ok k s rest L out hrun
    rw [hout]
    exact ih r1.1 r2 (fun x hx => hall x (List.mem_cons_of_mem _ hx))
      (oneSendData_step k L s r1 (hall s (List.mem_cons_self _ _)) hp hstep) hrest

theorem focusPending_after_requestFocus (L : EventLoop) (late : Nat) (hp : oneSendData L) :
    focusPending (L.now + late) L.nextSeq 0
      { now := L.now + late, nextSeq := L.nextSeq + 1,
        timers := L.timers ++ [{ due := L.now + late + 2000, seq := L.nextSeq,
                                 slot := Slot.resetFocusRequest }],
        camera := { L.camera with m_focus := true } } := by
  obtain ⟨sd, hsd⟩ := hp
  refine ⟨rfl, Nat.le_refl _, Nat.lt_succ_self _, by omega,
    ⟨_, List.mem_append_right _ (List.mem_singleton.mpr rfl), rfl, Nat.le_refl _,
      Nat.le_refl _⟩, sd, ?_⟩
  intro a ha hslota
  rcases List.mem_append.mp ha with h | h
  · exact ⟨hsd a h hslota, fun h0 => absurd h0 (by omega)⟩
  · rw [List.mem_singleton.mp h] at hslota
    cases hslota

/-! ## C3: the focus request -/

end QCCTV
